import Mathlib

/-!
# Process manager: producer/consumer pairs over pipes

A shallow embedding of `process_manager.c`.

* The two worker bodies, `producer_process` and `consumer_process`, become
  functions from the results of their system calls to the trace of events the
  process performs.
* The two coordinator functions, `run_basic_demo` and `run_multiple_pairs`,
  become functions from an environment (the results of the `pipe` call and of
  the two `fork` calls of each pair, and of `waitpid` for each pid) to the
  coordinator's final state and outcome.  A `fork` that succeeds is recorded
  as a `Child`: the channel handles the new process holds after its role split
  and the worker body it runs.
* C `int` arithmetic is two's complement on 32 bits (`wrapInt`).
* `pids` is the 10-slot array of the source; a store at an index that is not
  below its capacity has no defined behaviour and ends the model run with
  `Outcome.outOfBounds`.
-/

namespace ProcessManager

/-! ## Machine integers -/

/-- Smallest value of a C `int`. -/
def INT_MIN : Int := -2147483648

/-- Largest value of a C `int`. -/
def INT_MAX : Int := 2147483647

/-- Reduction of a mathematical integer to the 32-bit two's complement range. -/
def wrapInt (x : Int) : Int := (x + 2147483648) % 4294967296 - 2147483648

/-- Addition of two C `int` values. -/
def intAdd (a b : Int) : Int := wrapInt (a + b)

/-- Value of `sizeof(int)`, the width of one record. -/
def SIZEOF_INT : Int := 4

/-- Modelled from the spec: the macro `NUM_VALUES` is defined in the header
`process_manager.h`, which is not among the sources; the spec fixes the number
of records a producer emits at K = 5 (and so does the comment above
`producer_process`). -/
def NUM_VALUES : Nat := 5

/-! ## Worker processes -/

/-- File descriptor number. -/
abbrev Fd := Int

/-- Process identity (`pid_t`). -/
abbrev Pid := Int

/-- What a worker process does, in order. Console output is not recorded,
except the final sum of the consumer. -/
inductive Event where
  | write (fd : Fd) (number : Int)
  | read (fd : Fd)
  | perror
  | finalSum (sum : Int)
  | close (fd : Fd)
  | exit (code : Int)
  deriving DecidableEq, Repr

/-- The loop of `producer_process`, with `remaining` iterations left and loop
counter `i`. `wr i` is the value returned by the `write` of iteration `i`.
After the loop: `close(write_fd); exit(0)`. -/
def producer_loop (write_fd : Fd) (start_num : Int) (wr : Nat → Int) :
    Nat → Nat → List Event
  | 0, _ => [Event.close write_fd, Event.exit 0]
  | remaining + 1, i =>
    let number := intAdd start_num i
    if wr i ≠ SIZEOF_INT then
      [Event.write write_fd number, Event.perror, Event.exit 1]
    else
      Event.write write_fd number :: producer_loop write_fd start_num wr remaining (i + 1)

/-- The body of a producer: `for (int i = 0; i < NUM_VALUES; i++)`. -/
def producer_process (write_fd : Fd) (start_num : Int) (wr : Nat → Int) : List Event :=
  producer_loop write_fd start_num wr NUM_VALUES 0

/-- Result of one `read(read_fd, &number, sizeof(number))`: the value returned
and the contents of `number` after the call. -/
structure ReadResult where
  ret : Int
  number : Int
  deriving DecidableEq, Repr

/-- The loop of `consumer_process`: `while (read(...) > 0) { count++; sum += number; }`
followed by the report of the final sum, `close(read_fd)` and `exit(0)`.
The list holds the results of the successive reads; when it is exhausted
before a read returns a value that is not positive, the process stays blocked
in `read` and there is no trace (`none`). -/
def consumer_loop (read_fd : Fd) : List ReadResult → Int → Int → Option (List Event)
  | [], _, _ => none
  | r :: rest, count, sum =>
    if r.ret > 0 then
      (consumer_loop read_fd rest (intAdd count 1) (intAdd sum r.number)).map
        (fun tr => Event.read read_fd :: tr)
    else
      some [Event.read read_fd, Event.finalSum sum, Event.close read_fd, Event.exit 0]

/-- The body of a consumer; `pair_id` is not used by the source either. -/
def consumer_process (read_fd : Fd) (_pair_id : Int) (reads : List ReadResult) :
    Option (List Event) :=
  consumer_loop read_fd reads 0 0

/-! ### Observations on traces -/

/-- The values passed to `write`, in call order. -/
def writtenValues : List Event → List Int
  | [] => []
  | Event.write _ v :: tr => v :: writtenValues tr
  | _ :: tr => writtenValues tr

/-- Number of `write` calls. -/
def writeAttempts (tr : List Event) : Nat := (writtenValues tr).length

/-- Number of `read` calls. -/
def readAttempts : List Event → Nat
  | [] => 0
  | Event.read _ :: tr => readAttempts tr + 1
  | _ :: tr => readAttempts tr

/-- The exit status the trace ends with, if the trace ends with `exit`. -/
def exitStatus (tr : List Event) : Option Int :=
  match tr.getLast? with
  | some (Event.exit code) => some code
  | _ => none

/-- The final sum the trace reports, if any. -/
def reportedSum : List Event → Option Int
  | [] => none
  | Event.finalSum s :: _ => some s
  | _ :: tr => reportedSum tr

/-- What a pipe hands to its reader when the writer wrote `values` as full
records and then closed the write end: the records in write order, then
end-of-stream (`read` returns 0 and leaves `number` as it was). -/
def fifoDelivery (values : List Int) : List ReadResult :=
  values.map (fun v => ⟨SIZEOF_INT, v⟩) ++ [⟨0, values.getLastD 0⟩]

/-- Sum of the received values as `consumer_process` accumulates it. -/
def runningSum (sum : Int) (values : List Int) : Int :=
  values.foldl intAdd sum

/-! ## Coordinator -/

/-- Multiplication of two C `int` values. -/
def intMul (a b : Int) : Int := wrapInt (a * b)

/-- The two ends of a channel. -/
inductive Side where
  | read
  | write
  deriving DecidableEq, Repr

/-- An open channel handle in one process: the descriptor number, the channel
it refers to (the pair index whose `pipe` call created it) and the end. -/
structure Handle where
  fd : Fd
  chan : Nat
  side : Side
  deriving DecidableEq, Repr

/-- Effect of `close(fd)` on a table of channel handles: the entry with this
descriptor number is released. -/
def closeIn : List Handle → Fd → List Handle
  | [], _ => []
  | h :: t, fd => if h.fd = fd then t else h :: closeIn t fd

/-- The handle a descriptor number refers to, if it is open. -/
def lookupFd : List Handle → Fd → Option Handle
  | [], _ => none
  | h :: t, fd => if h.fd = fd then some h else lookupFd t fd

/-- The worker body a child runs, with its arguments. -/
inductive Role where
  | producer (write_fd : Fd) (start_num : Int)
  | consumer (read_fd : Fd) (pair_id : Int)
  deriving DecidableEq, Repr

/-- A process created by a successful `fork`: its identity, the channel
handles it holds once it has closed the end it does not use, and the worker
body it then runs (which never returns into the coordinator). -/
structure Child where
  pid : Pid
  table : List Handle
  role : Role
  deriving DecidableEq, Repr

/-- What `waitpid(pid, &status, 0)` yields: failure (it returns -1), or the
kind of termination read from `status`. -/
inductive WaitResult where
  | failed
  | exited (code : Int)
  | signaled (sig : Int)
  | other
  deriving DecidableEq, Repr

/-- Whether the reaping code prints a line for this result: `done > 0` and
`WIFEXITED` or `WIFSIGNALED`. -/
def WaitResult.printed : WaitResult → Bool
  | WaitResult.exited _ => true
  | WaitResult.signaled _ => true
  | _ => false

/-- The operating system as seen by the coordinator: for pair `i`, what the
`pipe` call yields (`none` for -1, else the read and write descriptors) and
what each of the two `fork` calls returns in the coordinator (`none` for -1,
else the pid of the new child); and what `waitpid` yields for a pid. -/
structure Env where
  pipe : Nat → Option (Fd × Fd)
  forkProducer : Nat → Option Pid
  forkConsumer : Nat → Option Pid
  waitpid : Pid → WaitResult

/-- The three calls of one iteration that can fail. -/
inductive Stage where
  | pipe
  | producerFork
  | consumerFork
  deriving DecidableEq, Repr

/-- State of the coordinator process. `table` holds its open channel handles;
`created` and `closed` log the handles `pipe` gave it and the handles it
released with `close`; `badCloses` counts `close` calls on a descriptor that is
not open; `pids` holds slots `0 .. pid_count - 1` of the array `pids`
(`pid_count` is its length); `children` lists the processes forked, `waits` the
`waitpid` calls made with their results, `reports` the outcomes printed,
`failed` the calls whose failure the coordinator met (where the source calls
`perror`), as pair index and call. -/
structure Coord where
  table : List Handle
  created : List Handle
  closed : List Handle
  badCloses : Nat
  pids : List Pid
  children : List Child
  waits : List (Pid × WaitResult)
  reports : List (Pid × WaitResult)
  failed : List (Nat × Stage)
  deriving DecidableEq, Repr

/-- The coordinator on entry: no channel handle, nothing collected. -/
def Coord.init : Coord :=
  { table := [], created := [], closed := [], badCloses := 0, pids := [],
    children := [], waits := [], reports := [], failed := [] }

/-- A successful `pipe(fds)` of pair `chan`: both ends open in the caller. -/
def Coord.openPipe (st : Coord) (chan : Nat) (r w : Fd) : Coord :=
  { st with
    table := st.table ++ [⟨r, chan, Side.read⟩, ⟨w, chan, Side.write⟩]
    created := st.created ++ [⟨r, chan, Side.read⟩, ⟨w, chan, Side.write⟩] }

/-- The call `close(fd)` in the coordinator. -/
def Coord.close (st : Coord) (fd : Fd) : Coord :=
  match lookupFd st.table fd with
  | some h => { st with table := closeIn st.table fd, closed := st.closed ++ [h] }
  | none => { st with badCloses := st.badCloses + 1 }

/-- The call `perror` after the call `s` of pair `i` has failed. -/
def Coord.perror (st : Coord) (i : Nat) (s : Stage) : Coord :=
  { st with failed := st.failed ++ [(i, s)] }

/-- A successful `fork`: the child starts with a copy of the coordinator's
handles, closes `unused` and runs `role`. -/
def Coord.spawn (st : Coord) (pid : Pid) (unused : Fd) (role : Role) : Coord :=
  { st with children := st.children ++ [⟨pid, closeIn st.table unused, role⟩] }

/-- Capacity of the array `pid_t pids[10]`. -/
def PIDS_CAPACITY : Nat := 10

/-- The store `pids[pid_count++] = pid`; `none` when the index is not below the
capacity of the array. -/
def Coord.store (st : Coord) (pid : Pid) : Option Coord :=
  if st.pids.length < PIDS_CAPACITY then some { st with pids := st.pids ++ [pid] } else none

/-- One `waitpid(pid, &status, 0)` whose result is not printed. -/
def Coord.wait (st : Coord) (env : Env) (pid : Pid) : Coord :=
  { st with waits := st.waits ++ [(pid, env.waitpid pid)] }

/-- One `waitpid(pid, &status, 0)` followed by the report of the outcome. -/
def Coord.waitReport (st : Coord) (env : Env) (pid : Pid) : Coord :=
  { st with
    waits := st.waits ++ [(pid, env.waitpid pid)]
    reports := st.reports ++ (if (env.waitpid pid).printed then [(pid, env.waitpid pid)] else []) }

/-- The loop `for (k = 0; k < pid_count; k++) waitpid(pids[k], &st, 0);` of the
failure paths. -/
def Coord.waitAll (st : Coord) (env : Env) : Coord :=
  st.pids.foldl (fun s pid => s.wait env pid) st

/-- The final loop `for (i = 0; i < pid_count; i++)` that waits for and
reports every collected child. -/
def Coord.reapAll (st : Coord) (env : Env) : Coord :=
  st.pids.foldl (fun s pid => s.waitReport env pid) st

/-- How a coordinator function ends: it returns `code`, or it stores `pid` at
`pids[index]` with `index` not below the capacity of the array, after which
the C program has no defined behaviour. -/
inductive Outcome where
  | returned (code : Int)
  | outOfBounds (index : Nat) (pid : Pid)
  deriving DecidableEq, Repr

/-- The end of a coordinator function: outcome and state at that point. -/
structure Run where
  outcome : Outcome
  final : Coord
  deriving DecidableEq, Repr

/-- Result of one iteration of the loop over the pairs. -/
inductive Step where
  | next (st : Coord)
  | stop (run : Run)
  deriving DecidableEq, Repr

/-- The function `run_basic_demo`, in the coordinator process. -/
def run_basic_demo (env : Env) : Run :=
  let st := Coord.init
  match env.pipe 0 with
  | none => ⟨Outcome.returned (-1), st.perror 0 Stage.pipe⟩
  | some (r, w) =>
    let st := st.openPipe 0 r w
    match env.forkProducer 0 with
    | none => ⟨Outcome.returned (-1), ((st.perror 0 Stage.producerFork).close r).close w⟩
    | some producer_pid =>
      let st := st.spawn producer_pid r (Role.producer w 1)
      match env.forkConsumer 0 with
      | none =>
        ⟨Outcome.returned (-1),
          (((st.perror 0 Stage.consumerFork).close r).close w).wait env producer_pid⟩
      | some consumer_pid =>
        let st := st.spawn consumer_pid w (Role.consumer r 0)
        let st := (st.close r).close w
        ⟨Outcome.returned 0, (st.waitReport env producer_pid).waitReport env consumer_pid⟩

/-- The body of the loop `for (int i = 0; i < num_pairs; i++)` of
`run_multiple_pairs`, for pair `i`. -/
def pair_iteration (env : Env) (i : Nat) (st : Coord) : Step :=
  match env.pipe i with
  | none => Step.stop ⟨Outcome.returned (-1), (st.perror i Stage.pipe).waitAll env⟩
  | some (r, w) =>
    let st := st.openPipe i r w
    match env.forkProducer i with
    | none =>
      Step.stop ⟨Outcome.returned (-1),
        (((st.perror i Stage.producerFork).close r).close w).waitAll env⟩
    | some p =>
      let st := st.spawn p r (Role.producer w (intAdd (intMul i 5) 1))
      match st.store p with
      | none => Step.stop ⟨Outcome.outOfBounds st.pids.length p, st⟩
      | some st =>
        match env.forkConsumer i with
        | none =>
          Step.stop ⟨Outcome.returned (-1),
            (((st.perror i Stage.consumerFork).close r).close w).waitAll env⟩
        | some c =>
          let st := st.spawn c w (Role.consumer r (intAdd i 1))
          match st.store c with
          | none => Step.stop ⟨Outcome.outOfBounds st.pids.length c, st⟩
          | some st => Step.next ((st.close r).close w)

/-- The loop over the pairs: `remaining` iterations starting at pair `i`. -/
def pairs_from (env : Env) : Nat → Nat → Coord → Step
  | 0, _, st => Step.next st
  | remaining + 1, i, st =>
    match pair_iteration env i st with
    | Step.next st1 => pairs_from env remaining (i + 1) st1
    | Step.stop run => Step.stop run

/-- The function `run_multiple_pairs`, in the coordinator process. The loop
runs for `i = 0 .. num_pairs - 1`, that is `num_pairs.toNat` times. -/
def run_multiple_pairs (env : Env) (num_pairs : Int) : Run :=
  match pairs_from env num_pairs.toNat 0 Coord.init with
  | Step.next st => ⟨Outcome.returned 0, st.reapAll env⟩
  | Step.stop run => run

/-! ## Vocabulary for the statements -/

/-- Read descriptor given by the `pipe` call of pair `i` (0 if it failed). -/
def Env.readFd (env : Env) (i : Nat) : Fd := ((env.pipe i).getD (0, 0)).1

/-- Write descriptor given by the `pipe` call of pair `i` (0 if it failed). -/
def Env.writeFd (env : Env) (i : Nat) : Fd := ((env.pipe i).getD (0, 0)).2

/-- Identity of the producer forked for pair `i` (0 if the fork failed). -/
def Env.producerPid (env : Env) (i : Nat) : Pid := (env.forkProducer i).getD 0

/-- Identity of the consumer forked for pair `i` (0 if the fork failed). -/
def Env.consumerPid (env : Env) (i : Nat) : Pid := (env.forkConsumer i).getD 0

/-- The `pipe` call and both `fork` calls of pair `i` succeed. -/
def PairOk (env : Env) (i : Nat) : Prop :=
  (env.pipe i).isSome = true ∧ (env.forkProducer i).isSome = true
    ∧ (env.forkConsumer i).isSome = true

instance (env : Env) (i : Nat) : Decidable (PairOk env i) := by
  unfold PairOk
  infer_instance

/-- In pair `i` the call `s` fails and the calls before it succeed. -/
def FailsAt (env : Env) (i : Nat) : Stage → Prop
  | Stage.pipe => env.pipe i = none
  | Stage.producerFork => (env.pipe i).isSome = true ∧ env.forkProducer i = none
  | Stage.consumerFork =>
    (env.pipe i).isSome = true ∧ (env.forkProducer i).isSome = true ∧ env.forkConsumer i = none

instance (env : Env) (i : Nat) (s : Stage) : Decidable (FailsAt env i s) := by
  cases s <;> unfold FailsAt <;> infer_instance

/-- Number of identities pair `i` has collected when its call `s` is made. -/
def Stage.collected : Stage → Nat
  | Stage.consumerFork => 1
  | _ => 0

/-- The read end of the channel of pair `i`. -/
def readHandle (env : Env) (i : Nat) : Handle := ⟨env.readFd i, i, Side.read⟩

/-- The write end of the channel of pair `i`. -/
def writeHandle (env : Env) (i : Nat) : Handle := ⟨env.writeFd i, i, Side.write⟩

/-- The producer of pair `i` as `run_multiple_pairs` forks it. -/
def producerChild (env : Env) (i : Nat) : Child :=
  ⟨env.producerPid i, closeIn [readHandle env i, writeHandle env i] (env.readFd i),
    Role.producer (env.writeFd i) (intAdd (intMul i 5) 1)⟩

/-- The consumer of pair `i` as `run_multiple_pairs` forks it. -/
def consumerChild (env : Env) (i : Nat) : Child :=
  ⟨env.consumerPid i, closeIn [readHandle env i, writeHandle env i] (env.writeFd i),
    Role.consumer (env.readFd i) (intAdd i 1)⟩

/-- Concatenation of `f 0, f 1, .., f (k - 1)`. -/
def collect {α : Type} (f : Nat → List α) : Nat → List α
  | 0 => []
  | k + 1 => collect f k ++ f k

/-- The coordinator of `run_multiple_pairs` once pairs `0 .. k - 1` have been
spawned, as a closed form. -/
def stateAfter (env : Env) (k : Nat) : Coord :=
  { table := []
    created := collect (fun j => [readHandle env j, writeHandle env j]) k
    closed := collect (fun j => [readHandle env j, writeHandle env j]) k
    badCloses := 0
    pids := collect (fun j => [env.producerPid j, env.consumerPid j]) k
    children := collect (fun j => [producerChild env j, consumerChild env j]) k
    waits := []
    reports := []
    failed := [] }

/-- The `waitpid` calls for a list of identities, in order, with their results. -/
def waitsFor (env : Env) (pids : List Pid) : List (Pid × WaitResult) :=
  pids.map (fun pid => (pid, env.waitpid pid))

/-! ### Concrete environments -/

/-- Every call succeeds: each pipe gets descriptors 3 and 4 (the coordinator has
closed the previous ones), the children get pids 100, 101, 102, .. in fork
order, and every child exits with status 0. -/
def envAllOk : Env :=
  { pipe := fun _ => some (3, 4)
    forkProducer := fun i => some (100 + 2 * (i : Int))
    forkConsumer := fun i => some (101 + 2 * (i : Int))
    waitpid := fun _ => WaitResult.exited 0 }

/-- As `envAllOk`, except that the call `s` of pair `k` fails. -/
def envFailAt (k : Nat) (s : Stage) : Env :=
  { pipe := fun i => if i = k ∧ s = Stage.pipe then none else some (3, 4)
    forkProducer := fun i =>
      if i = k ∧ s = Stage.producerFork then none else some (100 + 2 * (i : Int))
    forkConsumer := fun i =>
      if i = k ∧ s = Stage.consumerFork then none else some (101 + 2 * (i : Int))
    waitpid := fun _ => WaitResult.exited 0 }

/-- The coordinator of `run_multiple_pairs` when it returns after the call `s`
of pair `i` has failed (and `perror` has been called), pairs `0 .. i - 1`
having been spawned, as a closed form: the channel of pair `i` is created and closed unless it is the `pipe`
call that failed, the producer of pair `i` is collected when it is the consumer
fork that failed, and every collected identity has been waited for. -/
def stateAtFailure (env : Env) (i : Nat) (s : Stage) : Coord :=
  { table := []
    created := (stateAfter env i).created ++
      (if s = Stage.pipe then [] else [readHandle env i, writeHandle env i])
    closed := (stateAfter env i).closed ++
      (if s = Stage.pipe then [] else [readHandle env i, writeHandle env i])
    badCloses := 0
    pids := (stateAfter env i).pids ++
      (if s = Stage.consumerFork then [env.producerPid i] else [])
    children := (stateAfter env i).children ++
      (if s = Stage.consumerFork then [producerChild env i] else [])
    waits := waitsFor env ((stateAfter env i).pids ++
      (if s = Stage.consumerFork then [env.producerPid i] else []))
    reports := []
    failed := [(i, s)] }

/-- The coordinator of `run_multiple_pairs` at the store of the producer of pair
`i` when `pids` is full: both ends of the channel of pair `i` are open and the
producer is forked. -/
def stateAtOverflow (env : Env) (i : Nat) : Coord :=
  { stateAfter env i with
    table := [readHandle env i, writeHandle env i]
    created := (stateAfter env i).created ++ [readHandle env i, writeHandle env i]
    children := (stateAfter env i).children ++ [producerChild env i] }

/-- The producer as `run_basic_demo` forks it: start value 1. -/
def basicProducerChild (env : Env) : Child :=
  ⟨env.producerPid 0, closeIn [readHandle env 0, writeHandle env 0] (env.readFd 0),
    Role.producer (env.writeFd 0) 1⟩

/-- The consumer as `run_basic_demo` forks it: pair id 0. -/
def basicConsumerChild (env : Env) : Child :=
  ⟨env.consumerPid 0, closeIn [readHandle env 0, writeHandle env 0] (env.writeFd 0),
    Role.consumer (env.readFd 0) 0⟩

/-- The worker body and arguments the spec assigns to the `k`-th process forked
by the multi-pair coordinator: processes `2 i` and `2 i + 1` are the producer
and the consumer of pair `i`, with start value `i * 5 + 1` and identifying
index `i + 1`, as integers. -/
def assignedRole (env : Env) (k : Nat) : Role :=
  if k % 2 = 0 then Role.producer (env.writeFd (k / 2)) (((k / 2 : Nat) : Int) * 5 + 1)
  else Role.consumer (env.readFd (k / 2)) (((k / 2 : Nat) : Int) + 1)

/-- The final sum reported by the consumer of a pair whose producer is started
with `start_num` and has its writes answered by `wr`, when the channel delivers
what the producer wrote in FIFO order followed by end-of-stream. -/
def pairFinalSum (write_fd read_fd : Fd) (start_num pair_id : Int) (wr : Nat → Int) :
    Option Int :=
  (consumer_process read_fd pair_id
    (fifoDelivery (writtenValues (producer_process write_fd start_num wr)))).bind reportedSum

/-- The coordinator of `run_basic_demo` when it returns 0, as a closed form. -/
def basicStateDone (env : Env) : Coord :=
  { table := []
    created := [readHandle env 0, writeHandle env 0]
    closed := [readHandle env 0, writeHandle env 0]
    badCloses := 0
    pids := []
    children := [basicProducerChild env, basicConsumerChild env]
    waits := waitsFor env [env.producerPid 0, env.consumerPid 0]
    reports := (waitsFor env [env.producerPid 0, env.consumerPid 0]).filter
      (fun x => x.2.printed)
    failed := [] }

/-- The coordinator of `run_basic_demo` when it returns after its call `s` has
failed, as a closed form. -/
def basicStateAtFailure (env : Env) (s : Stage) : Coord :=
  { table := []
    created := if s = Stage.pipe then [] else [readHandle env 0, writeHandle env 0]
    closed := if s = Stage.pipe then [] else [readHandle env 0, writeHandle env 0]
    badCloses := 0
    pids := []
    children := if s = Stage.consumerFork then [basicProducerChild env] else []
    waits := waitsFor env (if s = Stage.consumerFork then [env.producerPid 0] else [])
    reports := []
    failed := [(0, s)] }

/-! ## Results on the worker bodies -/

theorem wrapInt_of_inRange (x : Int) (hlo : INT_MIN ≤ x) (hhi : x ≤ INT_MAX) :
    wrapInt x = x := by
  unfold wrapInt
  unfold INT_MIN at hlo
  unfold INT_MAX at hhi
  omega

theorem consumer_loop_positive_reads (read_fd : Fd) (pre : List ReadResult)
    (rest : List ReadResult) (hpre : ∀ r ∈ pre, r.ret > 0) :
    ∀ count sum : Int, ∃ count1 : Int,
      consumer_loop read_fd (pre ++ rest) count sum =
        (consumer_loop read_fd rest count1
          (runningSum sum (pre.map (fun r => r.number)))).map
          (fun tr => List.replicate pre.length (Event.read read_fd) ++ tr) := by
  induction pre with
  | nil =>
    intro count sum
    refine ⟨count, ?_⟩
    simp [runningSum]
  | cons r pre ih =>
    intro count sum
    have hr : r.ret > 0 := hpre r (List.mem_cons_self _ _)
    have hrest : ∀ q ∈ pre, q.ret > 0 := fun q hq => hpre q (List.mem_cons_of_mem _ hq)
    obtain ⟨count1, h1⟩ := ih hrest (intAdd count 1) (intAdd sum r.number)
    refine ⟨count1, ?_⟩
    rw [List.cons_append]
    simp only [consumer_loop, hr, if_true]
    rw [h1]
    simp [runningSum, List.replicate_succ]
    rfl

theorem producer_process_all_ok_trace (write_fd : Fd) (start_num : Int) (wr : Nat → Int)
    (hok : ∀ i, i < NUM_VALUES → wr i = SIZEOF_INT) :
    producer_process write_fd start_num wr =
      [Event.write write_fd (intAdd start_num 0), Event.write write_fd (intAdd start_num 1),
       Event.write write_fd (intAdd start_num 2), Event.write write_fd (intAdd start_num 3),
       Event.write write_fd (intAdd start_num 4), Event.close write_fd, Event.exit 0] := by
  have h0 := hok 0 (by decide)
  have h1 := hok 1 (by decide)
  have h2 := hok 2 (by decide)
  have h3 := hok 3 (by decide)
  have h4 := hok 4 (by decide)
  simp [producer_process, producer_loop, NUM_VALUES, h0, h1, h2, h3, h4]

/-- With every write answered by `sizeof(int)` and FIFO delivery, the consumer
reports the sum of the five values in `int` arithmetic. -/
theorem pairFinalSum_all_ok (write_fd read_fd : Fd) (start_num pair_id : Int)
    (wr : Nat → Int) (hok : ∀ i, i < NUM_VALUES → wr i = SIZEOF_INT) :
    pairFinalSum write_fd read_fd start_num pair_id wr =
      some (wrapInt (5 * start_num + 10)) := by
  unfold pairFinalSum
  rw [producer_process_all_ok_trace write_fd start_num wr hok]
  simp only [writtenValues, fifoDelivery, List.map_cons, List.map_nil, List.cons_append,
    List.nil_append, consumer_process, consumer_loop, SIZEOF_INT]
  simp only [show (4 : Int) > 0 by decide, show ¬ ((0 : Int) > 0) by decide, if_true, if_false,
    Option.map_some', Option.bind_some, reportedSum]
  simp only [Option.bind, reportedSum, Option.some.injEq]
  unfold intAdd wrapInt
  omega

/-- C1. When every write of `producer_process` returns `sizeof(int)`, the
producer performs exactly 5 writes, of `start_num + 0 .. start_num + 4`
computed in `int` arithmetic and in that order, then closes its write end and
exits with status 0; and whenever `start_num .. start_num + 4` are values of
an `int`, those five values are the integers `start_num + j`. -/
theorem producer_process_emits_five_consecutive (write_fd : Fd) (start_num : Int)
    (wr : Nat → Int) (hok : ∀ i, i < NUM_VALUES → wr i = SIZEOF_INT) :
    producer_process write_fd start_num wr =
        [Event.write write_fd (intAdd start_num 0), Event.write write_fd (intAdd start_num 1),
         Event.write write_fd (intAdd start_num 2), Event.write write_fd (intAdd start_num 3),
         Event.write write_fd (intAdd start_num 4), Event.close write_fd, Event.exit 0]
      ∧ writeAttempts (producer_process write_fd start_num wr) = 5
      ∧ exitStatus (producer_process write_fd start_num wr) = some 0
      ∧ (INT_MIN ≤ start_num → start_num + 4 ≤ INT_MAX →
          writtenValues (producer_process write_fd start_num wr) =
            [start_num, start_num + 1, start_num + 2, start_num + 3, start_num + 4]) := by
  have htr := producer_process_all_ok_trace write_fd start_num wr hok
  refine ⟨htr, ?_, ?_, ?_⟩
  · rw [htr]; rfl
  · rw [htr]; rfl
  · intro hlo hhi
    rw [htr]
    simp only [writtenValues, intAdd]
    unfold INT_MIN at hlo
    unfold INT_MAX at hhi
    have e0 : wrapInt (start_num + 0) = start_num := by unfold wrapInt; omega
    have e1 : wrapInt (start_num + 1) = start_num + 1 := by unfold wrapInt; omega
    have e2 : wrapInt (start_num + 2) = start_num + 2 := by unfold wrapInt; omega
    have e3 : wrapInt (start_num + 3) = start_num + 3 := by unfold wrapInt; omega
    have e4 : wrapInt (start_num + 4) = start_num + 4 := by unfold wrapInt; omega
    rw [e0, e1, e2, e3, e4]

/-- Witness for C1: start value 1 and every write returning 4. -/
theorem producer_process_emits_five_consecutive_witness :
    producer_process 4 1 (fun _ => 4) =
        [Event.write 4 (intAdd 1 0), Event.write 4 (intAdd 1 1),
         Event.write 4 (intAdd 1 2), Event.write 4 (intAdd 1 3),
         Event.write 4 (intAdd 1 4), Event.close 4, Event.exit 0]
      ∧ writtenValues (producer_process 4 1 (fun _ => 4)) = [1, 1 + 1, 1 + 2, 1 + 3, 1 + 4] :=
  ⟨(producer_process_emits_five_consecutive 4 1 (fun _ => 4) (fun _ _ => rfl)).1,
   (producer_process_emits_five_consecutive 4 1 (fun _ => 4) (fun _ _ => rfl)).2.2.2
     (by decide) (by decide)⟩

/-- C2. If the write of record `j` (0 ≤ j ≤ 4) is the first one of
`producer_process` that does not return `sizeof(int)`, the producer makes
exactly `j + 1` write attempts, for records `0 .. j` in order, and then exits
with status 1: the failed write is neither retried nor followed by another
write, and the write end is not closed before the exit. -/
theorem producer_process_stops_at_first_failed_write (write_fd : Fd) (start_num : Int)
    (wr : Nat → Int) (j : Nat) (hj : j < NUM_VALUES)
    (hbefore : ∀ i, i < j → wr i = SIZEOF_INT) (hfail : wr j ≠ SIZEOF_INT) :
    producer_process write_fd start_num wr =
        (List.range (j + 1)).map (fun i : Nat => Event.write write_fd (intAdd start_num i))
          ++ [Event.perror, Event.exit 1]
      ∧ writeAttempts (producer_process write_fd start_num wr) = j + 1
      ∧ exitStatus (producer_process write_fd start_num wr) = some 1 := by
  have htr : producer_process write_fd start_num wr =
      (List.range (j + 1)).map (fun i : Nat => Event.write write_fd (intAdd start_num i))
        ++ [Event.perror, Event.exit 1] := by
    unfold NUM_VALUES at hj
    interval_cases j
    · simp [producer_process, producer_loop, NUM_VALUES, hfail, List.range_succ]
    · have h0 := hbefore 0 (by decide)
      simp [producer_process, producer_loop, NUM_VALUES, hfail, h0, List.range_succ]
    · have h0 := hbefore 0 (by decide)
      have h1 := hbefore 1 (by decide)
      simp [producer_process, producer_loop, NUM_VALUES, hfail, h0, h1, List.range_succ]
    · have h0 := hbefore 0 (by decide)
      have h1 := hbefore 1 (by decide)
      have h2 := hbefore 2 (by decide)
      simp [producer_process, producer_loop, NUM_VALUES, hfail, h0, h1, h2, List.range_succ]
    · have h0 := hbefore 0 (by decide)
      have h1 := hbefore 1 (by decide)
      have h2 := hbefore 2 (by decide)
      have h3 := hbefore 3 (by decide)
      simp [producer_process, producer_loop, NUM_VALUES, hfail, h0, h1, h2, h3, List.range_succ]
  refine ⟨htr, ?_, ?_⟩
  · rw [htr]
    unfold NUM_VALUES at hj
    interval_cases j <;> rfl
  · rw [htr]
    unfold NUM_VALUES at hj
    interval_cases j <;> rfl

/-- Witness for C2: the third write (record 2) returns -1. -/
theorem producer_process_stops_at_first_failed_write_witness :
    producer_process 4 1 (fun i => if i = 2 then -1 else 4) =
        (List.range (2 + 1)).map (fun i : Nat => Event.write 4 (intAdd 1 i))
          ++ [Event.perror, Event.exit 1]
      ∧ writeAttempts (producer_process 4 1 (fun i => if i = 2 then -1 else 4)) = 2 + 1
      ∧ exitStatus (producer_process 4 1 (fun i => if i = 2 then -1 else 4)) = some 1 :=
  producer_process_stops_at_first_failed_write 4 1 (fun i => if i = 2 then -1 else 4) 2
    (by decide) (by intro i hi; interval_cases i <;> decide) (by decide)

theorem readAttempts_replicate_reads (read_fd : Fd) (tr : List Event) :
    ∀ n : Nat, readAttempts (List.replicate n (Event.read read_fd) ++ tr) =
      n + readAttempts tr := by
  intro n
  induction n with
  | zero => simp
  | succ n ih =>
    rw [List.replicate_succ, List.cons_append]
    simp only [readAttempts]
    rw [ih]
    omega

theorem exitStatus_cons (e : Event) (tr : List Event) (code : Int)
    (h : exitStatus tr = some code) : exitStatus (e :: tr) = some code := by
  cases tr with
  | nil => simp [exitStatus] at h
  | cons a tr =>
    unfold exitStatus at h ⊢
    rw [List.getLast?_cons_cons]
    exact h

/-- Whenever `consumer_process` terminates, its exit status is 0: the source
has no other `exit` call in it. -/
theorem consumer_loop_exit_status (read_fd : Fd) :
    ∀ (reads : List ReadResult) (count sum : Int) (tr : List Event),
      consumer_loop read_fd reads count sum = some tr → exitStatus tr = some 0 := by
  intro reads
  induction reads with
  | nil => intro count sum tr h; simp [consumer_loop] at h
  | cons r rest ih =>
    intro count sum tr h
    by_cases hr : r.ret > 0
    · simp only [consumer_loop, hr, if_true, Option.map_eq_some'] at h
      obtain ⟨tr1, h1, h2⟩ := h
      rw [← h2]
      exact exitStatus_cons _ _ _ (ih _ _ _ h1)
    · simp only [consumer_loop, hr, if_false, Option.some.injEq] at h
      rw [← h]
      rfl

/-- C3 (divergence). Whatever was read before, when a read of
`consumer_process` returns a negative value the consumer makes no further
read, reports the sum accumulated so far, closes its read end and exits with
status 0, exactly as it does at end-of-stream. -/
theorem consumer_process_exits_zero_on_read_error (read_fd : Fd) (pair_id : Int)
    (pre : List ReadResult) (err : ReadResult) (post : List ReadResult)
    (hpre : ∀ r ∈ pre, r.ret > 0) (herr : err.ret < 0) :
    consumer_process read_fd pair_id (pre ++ err :: post) =
        some (List.replicate (pre.length + 1) (Event.read read_fd) ++
          [Event.finalSum (runningSum 0 (pre.map (fun r => r.number))),
           Event.close read_fd, Event.exit 0])
      ∧ (consumer_process read_fd pair_id (pre ++ err :: post)).map readAttempts
          = some (pre.length + 1)
      ∧ (consumer_process read_fd pair_id (pre ++ err :: post)).bind exitStatus = some 0 := by
  obtain ⟨count1, h⟩ := consumer_loop_positive_reads read_fd pre (err :: post) hpre 0 0
  have hnot : ¬ err.ret > 0 := by omega
  have htr : consumer_process read_fd pair_id (pre ++ err :: post) =
      some (List.replicate (pre.length + 1) (Event.read read_fd) ++
        [Event.finalSum (runningSum 0 (pre.map (fun r => r.number))),
         Event.close read_fd, Event.exit 0]) := by
    unfold consumer_process
    rw [h]
    simp [consumer_loop, hnot, List.replicate_succ']
  refine ⟨htr, ?_, ?_⟩
  · rw [htr, Option.map_some', readAttempts_replicate_reads]
    rfl
  · have hx := consumer_loop_exit_status read_fd (pre ++ err :: post) 0 0 _ htr
    rw [htr]
    exact hx

/-- Witness for C3: one record (7) is received, then `read` returns -1. -/
theorem consumer_process_exits_zero_on_read_error_witness :
    consumer_process 3 1 ([⟨4, 7⟩] ++ ⟨-1, 7⟩ :: []) =
        some [Event.read 3, Event.read 3, Event.finalSum 7, Event.close 3, Event.exit 0]
      ∧ (consumer_process 3 1 ([⟨4, 7⟩] ++ ⟨-1, 7⟩ :: [])).map readAttempts = some (1 + 1)
      ∧ (consumer_process 3 1 ([⟨4, 7⟩] ++ ⟨-1, 7⟩ :: [])).bind exitStatus = some 0 :=
  consumer_process_exits_zero_on_read_error 3 1 [⟨4, 7⟩] ⟨-1, 7⟩ []
    (by decide) (by decide)

/-! ## Results on the coordinator -/

theorem foldl_wait (env : Env) (l : List Pid) :
    ∀ st : Coord, l.foldl (fun s pid => s.wait env pid) st =
      { st with waits := st.waits ++ waitsFor env l } := by
  induction l with
  | nil => intro st; simp [waitsFor]
  | cons a l ih =>
    intro st
    rw [List.foldl_cons, ih]
    simp [Coord.wait, waitsFor]

theorem waitAll_eq (env : Env) (st : Coord) :
    st.waitAll env = { st with waits := st.waits ++ waitsFor env st.pids } :=
  foldl_wait env st.pids st

theorem foldl_waitReport (env : Env) (l : List Pid) :
    ∀ st : Coord, l.foldl (fun s pid => s.waitReport env pid) st =
      { st with
        waits := st.waits ++ waitsFor env l
        reports := st.reports ++ (waitsFor env l).filter (fun x => x.2.printed) } := by
  induction l with
  | nil => intro st; simp [waitsFor]
  | cons a l ih =>
    intro st
    rw [List.foldl_cons, ih]
    by_cases h : (env.waitpid a).printed = true
    · simp [Coord.waitReport, waitsFor, h, List.filter_cons]
    · simp [Coord.waitReport, waitsFor, h, List.filter_cons]

theorem reapAll_eq (env : Env) (st : Coord) :
    st.reapAll env = { st with
      waits := st.waits ++ waitsFor env st.pids
      reports := st.reports ++ (waitsFor env st.pids).filter (fun x => x.2.printed) } :=
  foldl_waitReport env st.pids st

theorem collect_length_two {α : Type} (f : Nat → List α) (hf : ∀ j, (f j).length = 2) :
    ∀ k, (collect f k).length = 2 * k := by
  intro k
  induction k with
  | zero => rfl
  | succ k ih => simp [collect, ih, hf]; omega

theorem stateAfter_pids_length (env : Env) (k : Nat) :
    (stateAfter env k).pids.length = 2 * k :=
  collect_length_two (fun j => [env.producerPid j, env.consumerPid j]) (fun _ => rfl) k

theorem stateAfter_zero (env : Env) : stateAfter env 0 = Coord.init := rfl

/-- One iteration in which the three calls succeed and both stores fit. -/
theorem pair_iteration_next (env : Env) (i : Nat) (st : Coord) (r w : Fd) (p c : Pid)
    (hp : env.pipe i = some (r, w)) (hfp : env.forkProducer i = some p)
    (hfc : env.forkConsumer i = some c) (ht : st.table = [])
    (hl : st.pids.length + 1 < PIDS_CAPACITY) :
    pair_iteration env i st = Step.next
      { st with
        created := st.created ++ [⟨r, i, Side.read⟩, ⟨w, i, Side.write⟩]
        closed := st.closed ++ [⟨r, i, Side.read⟩, ⟨w, i, Side.write⟩]
        pids := st.pids ++ [p, c]
        children := st.children ++
          [⟨p, [⟨w, i, Side.write⟩], Role.producer w (intAdd (intMul i 5) 1)⟩,
           ⟨c, closeIn [⟨r, i, Side.read⟩, ⟨w, i, Side.write⟩] w,
             Role.consumer r (intAdd i 1)⟩] } := by
  obtain ⟨table, created, closed, badCloses, pids, children, waits, reports, failed⟩ := st
  simp only at ht hl
  subst ht
  have h1 : pids.length < PIDS_CAPACITY := by omega
  simp [pair_iteration, hp, hfp, hfc, Coord.openPipe, Coord.spawn, Coord.store, Coord.close,
    h1, hl, lookupFd, closeIn]

/-- One iteration whose `pipe` call fails. -/
theorem pair_iteration_pipe_fails (env : Env) (i : Nat) (st : Coord)
    (hp : env.pipe i = none) :
    pair_iteration env i st =
      Step.stop ⟨Outcome.returned (-1), (st.perror i Stage.pipe).waitAll env⟩ := by
  simp [pair_iteration, hp]

/-- One iteration whose producer `fork` fails. -/
theorem pair_iteration_producer_fork_fails (env : Env) (i : Nat) (st : Coord) (r w : Fd)
    (hp : env.pipe i = some (r, w)) (hfp : env.forkProducer i = none) (ht : st.table = []) :
    pair_iteration env i st = Step.stop ⟨Outcome.returned (-1),
      Coord.waitAll { st with
        created := st.created ++ [⟨r, i, Side.read⟩, ⟨w, i, Side.write⟩]
        closed := st.closed ++ [⟨r, i, Side.read⟩, ⟨w, i, Side.write⟩]
        failed := st.failed ++ [(i, Stage.producerFork)] } env⟩ := by
  obtain ⟨table, created, closed, badCloses, pids, children, waits, reports, failed⟩ := st
  simp only at ht
  subst ht
  simp [pair_iteration, hp, hfp, Coord.openPipe, Coord.close, Coord.perror, lookupFd, closeIn]

/-- One iteration whose consumer `fork` fails, the producer being stored. -/
theorem pair_iteration_consumer_fork_fails (env : Env) (i : Nat) (st : Coord) (r w : Fd)
    (p : Pid) (hp : env.pipe i = some (r, w)) (hfp : env.forkProducer i = some p)
    (hfc : env.forkConsumer i = none) (ht : st.table = [])
    (hl : st.pids.length < PIDS_CAPACITY) :
    pair_iteration env i st = Step.stop ⟨Outcome.returned (-1),
      Coord.waitAll { st with
        created := st.created ++ [⟨r, i, Side.read⟩, ⟨w, i, Side.write⟩]
        closed := st.closed ++ [⟨r, i, Side.read⟩, ⟨w, i, Side.write⟩]
        pids := st.pids ++ [p]
        children := st.children ++
          [⟨p, [⟨w, i, Side.write⟩], Role.producer w (intAdd (intMul i 5) 1)⟩]
        failed := st.failed ++ [(i, Stage.consumerFork)] } env⟩ := by
  obtain ⟨table, created, closed, badCloses, pids, children, waits, reports, failed⟩ := st
  simp only at ht hl
  subst ht
  simp [pair_iteration, hp, hfp, hfc, Coord.openPipe, Coord.spawn, Coord.store, Coord.close,
    Coord.perror, hl, lookupFd, closeIn]

/-- One iteration whose producer is forked when `pids` is full. -/
theorem pair_iteration_store_out_of_bounds (env : Env) (i : Nat) (st : Coord) (r w : Fd)
    (p : Pid) (hp : env.pipe i = some (r, w)) (hfp : env.forkProducer i = some p)
    (ht : st.table = []) (hl : ¬ st.pids.length < PIDS_CAPACITY) :
    pair_iteration env i st = Step.stop ⟨Outcome.outOfBounds st.pids.length p,
      { st with
        table := [⟨r, i, Side.read⟩, ⟨w, i, Side.write⟩]
        created := st.created ++ [⟨r, i, Side.read⟩, ⟨w, i, Side.write⟩]
        children := st.children ++
          [⟨p, [⟨w, i, Side.write⟩], Role.producer w (intAdd (intMul i 5) 1)⟩] }⟩ := by
  obtain ⟨table, created, closed, badCloses, pids, children, waits, reports, failed⟩ := st
  simp only at ht hl
  subst ht
  simp [pair_iteration, hp, hfp, Coord.openPipe, Coord.spawn, Coord.store, hl, closeIn]

theorem env_pipe_some (env : Env) (i : Nat) (h : (env.pipe i).isSome = true) :
    env.pipe i = some (env.readFd i, env.writeFd i) := by
  obtain ⟨⟨r, w⟩, hp⟩ := Option.isSome_iff_exists.mp h
  simp [Env.readFd, Env.writeFd, hp]

theorem env_forkProducer_some (env : Env) (i : Nat) (h : (env.forkProducer i).isSome = true) :
    env.forkProducer i = some (env.producerPid i) := by
  obtain ⟨p, hp⟩ := Option.isSome_iff_exists.mp h
  simp [Env.producerPid, hp]

theorem env_forkConsumer_some (env : Env) (i : Nat) (h : (env.forkConsumer i).isSome = true) :
    env.forkConsumer i = some (env.consumerPid i) := by
  obtain ⟨p, hp⟩ := Option.isSome_iff_exists.mp h
  simp [Env.consumerPid, hp]

theorem producerChild_eq (env : Env) (i : Nat) :
    producerChild env i = ⟨env.producerPid i, [writeHandle env i],
      Role.producer (env.writeFd i) (intAdd (intMul i 5) 1)⟩ := by
  simp [producerChild, closeIn, readHandle]

/-- From the state after `i` pairs, a fully successful iteration leads to the
state after `i + 1` pairs. -/
theorem pair_iteration_ok (env : Env) (i : Nat) (hok : PairOk env i) (hi : i < 5) :
    pair_iteration env i (stateAfter env i) = Step.next (stateAfter env (i + 1)) := by
  obtain ⟨h1, h2, h3⟩ := hok
  have hlen := stateAfter_pids_length env i
  rw [pair_iteration_next env i (stateAfter env i) _ _ _ _ (env_pipe_some env i h1)
    (env_forkProducer_some env i h2) (env_forkConsumer_some env i h3) rfl
    (by rw [hlen]; unfold PIDS_CAPACITY; omega)]
  simp [stateAfter, collect, readHandle, writeHandle, producerChild, consumerChild, closeIn]

/-- From the state after `i` pairs, an iteration whose call `s` fails while the
identities collected so far fit in `pids` returns -1 in `stateAtFailure`. -/
theorem pair_iteration_fails (env : Env) (i : Nat) (s : Stage) (hf : FailsAt env i s)
    (hcap : 2 * i + s.collected ≤ PIDS_CAPACITY) :
    pair_iteration env i (stateAfter env i) =
      Step.stop ⟨Outcome.returned (-1), stateAtFailure env i s⟩ := by
  have hlen := stateAfter_pids_length env i
  cases s with
  | pipe =>
    rw [pair_iteration_pipe_fails env i _ hf, waitAll_eq]
    simp [stateAtFailure, stateAfter, Coord.perror]
  | producerFork =>
    obtain ⟨h1, h2⟩ := hf
    rw [pair_iteration_producer_fork_fails env i _ _ _ (env_pipe_some env i h1) h2 rfl,
      waitAll_eq]
    simp [stateAtFailure, stateAfter, readHandle, writeHandle]
  | consumerFork =>
    obtain ⟨h1, h2, h3⟩ := hf
    have hl : (stateAfter env i).pids.length < PIDS_CAPACITY := by
      rw [hlen]
      simp only [Stage.collected] at hcap
      omega
    rw [pair_iteration_consumer_fork_fails env i _ _ _ _ (env_pipe_some env i h1)
      (env_forkProducer_some env i h2) h3 rfl hl, waitAll_eq]
    simp [stateAtFailure, stateAfter, readHandle, writeHandle, producerChild, closeIn]

/-- From the state after 5 pairs or more, an iteration whose `pipe` call and
producer fork succeed stores the producer past the end of `pids`. -/
theorem pair_iteration_overflows (env : Env) (i : Nat) (hi : 5 ≤ i)
    (h1 : (env.pipe i).isSome = true) (h2 : (env.forkProducer i).isSome = true) :
    pair_iteration env i (stateAfter env i) =
      Step.stop ⟨Outcome.outOfBounds (2 * i) (env.producerPid i), stateAtOverflow env i⟩ := by
  have hlen := stateAfter_pids_length env i
  have hl : ¬ (stateAfter env i).pids.length < PIDS_CAPACITY := by
    rw [hlen]
    unfold PIDS_CAPACITY
    omega
  rw [pair_iteration_store_out_of_bounds env i _ _ _ _ (env_pipe_some env i h1)
    (env_forkProducer_some env i h2) rfl hl, hlen]
  simp [stateAtOverflow, stateAfter, readHandle, writeHandle, producerChild, closeIn]

/-- Every way the loop over the pairs can end, started in the state after `i`
pairs with `remaining` iterations to go. -/
theorem pairs_from_cases (env : Env) :
    ∀ (remaining i : Nat), i ≤ 5 → (∀ j, j < i → PairOk env j) →
      ((∀ j, j < i + remaining → PairOk env j) ∧ (i + remaining ≤ 5 ∨ remaining = 0)
          ∧ pairs_from env remaining i (stateAfter env i) =
              Step.next (stateAfter env (i + remaining)))
      ∨ (∃ k s, i ≤ k ∧ k < i + remaining ∧ (∀ j, j < k → PairOk env j) ∧ FailsAt env k s
          ∧ 2 * k + s.collected ≤ PIDS_CAPACITY
          ∧ pairs_from env remaining i (stateAfter env i) =
              Step.stop ⟨Outcome.returned (-1), stateAtFailure env k s⟩)
      ∨ (5 < i + remaining ∧ (∀ j, j < 5 → PairOk env j) ∧ (env.pipe 5).isSome = true
          ∧ (env.forkProducer 5).isSome = true
          ∧ pairs_from env remaining i (stateAfter env i) =
              Step.stop ⟨Outcome.outOfBounds 10 (env.producerPid 5), stateAtOverflow env 5⟩) := by
  intro remaining
  induction remaining with
  | zero =>
    intro i _ hprev
    exact Or.inl ⟨by simpa using hprev, Or.inr rfl, rfl⟩
  | succ remaining ih =>
    intro i hi hprev
    by_cases h1 : (env.pipe i).isSome = true
    · by_cases h2 : (env.forkProducer i).isSome = true
      · by_cases hi5 : i < 5
        · by_cases h3 : (env.forkConsumer i).isSome = true
          · have hok : PairOk env i := ⟨h1, h2, h3⟩
            have hprev1 : ∀ j, j < i + 1 → PairOk env j := by
              intro j hj
              rcases Nat.lt_succ_iff_lt_or_eq.mp hj with h | h
              · exact hprev j h
              · exact h ▸ hok
            have hstep : pairs_from env (remaining + 1) i (stateAfter env i) =
                pairs_from env remaining (i + 1) (stateAfter env (i + 1)) := by
              simp [pairs_from, pair_iteration_ok env i hok hi5]
            rw [hstep]
            have e : i + (remaining + 1) = i + 1 + remaining := by omega
            rw [e]
            rcases ih (i + 1) (by omega) hprev1 with hA | ⟨k, s, hk1, hk2, hk3, hk4, hk5, hk6⟩ | hC
            · obtain ⟨a1, a2, a3⟩ := hA
              refine Or.inl ⟨a1, ?_, a3⟩
              rcases a2 with a2 | a2
              · exact Or.inl a2
              · exact Or.inl (by omega)
            · exact Or.inr (Or.inl ⟨k, s, by omega, hk2, hk3, hk4, hk5, hk6⟩)
            · exact Or.inr (Or.inr hC)
          · have hf : FailsAt env i Stage.consumerFork :=
              ⟨h1, h2, by simpa using h3⟩
            have hcap : 2 * i + Stage.consumerFork.collected ≤ PIDS_CAPACITY := by
              simp only [Stage.collected, PIDS_CAPACITY]
              omega
            refine Or.inr (Or.inl ⟨i, Stage.consumerFork, le_refl i, by omega, hprev, hf, hcap, ?_⟩)
            simp [pairs_from, pair_iteration_fails env i _ hf hcap]
        · have hi' : i = 5 := by omega
          subst hi'
          refine Or.inr (Or.inr ⟨by omega, hprev, h1, h2, ?_⟩)
          simp [pairs_from, pair_iteration_overflows env 5 (le_refl 5) h1 h2]
      · have hf : FailsAt env i Stage.producerFork := ⟨h1, by simpa using h2⟩
        have hcap : 2 * i + Stage.producerFork.collected ≤ PIDS_CAPACITY := by
          simp only [Stage.collected, PIDS_CAPACITY]
          omega
        refine Or.inr (Or.inl ⟨i, Stage.producerFork, le_refl i, by omega, hprev, hf, hcap, ?_⟩)
        simp [pairs_from, pair_iteration_fails env i _ hf hcap]
    · have hf : FailsAt env i Stage.pipe := by simpa [FailsAt] using h1
      have hcap : 2 * i + Stage.pipe.collected ≤ PIDS_CAPACITY := by
        simp only [Stage.collected, PIDS_CAPACITY]
        omega
      refine Or.inr (Or.inl ⟨i, Stage.pipe, le_refl i, by omega, hprev, hf, hcap, ?_⟩)
      simp [pairs_from, pair_iteration_fails env i _ hf hcap]

theorem failsAt_not_pairOk (env : Env) (i : Nat) (s : Stage) (hf : FailsAt env i s) :
    ¬ PairOk env i := by
  rintro ⟨h1, h2, h3⟩
  cases s with
  | pipe => simp [FailsAt] at hf; simp [hf] at h1
  | producerFork => obtain ⟨_, h⟩ := hf; simp [h] at h2
  | consumerFork => obtain ⟨_, _, h⟩ := hf; simp [h] at h3

theorem failsAt_unique (env : Env) (i : Nat) (s t : Stage) (hs : FailsAt env i s)
    (ht : FailsAt env i t) : s = t := by
  cases s <;> cases t <;> simp [FailsAt] at hs ht <;> first | rfl | simp_all

/-- Every way `run_multiple_pairs` can end. -/
theorem run_multiple_pairs_cases (env : Env) (num_pairs : Int) :
    ((∀ j, j < num_pairs.toNat → PairOk env j) ∧ num_pairs.toNat ≤ 5
        ∧ run_multiple_pairs env num_pairs =
            ⟨Outcome.returned 0, (stateAfter env num_pairs.toNat).reapAll env⟩)
    ∨ (∃ k s, k < num_pairs.toNat ∧ (∀ j, j < k → PairOk env j) ∧ FailsAt env k s
        ∧ 2 * k + s.collected ≤ PIDS_CAPACITY
        ∧ run_multiple_pairs env num_pairs =
            ⟨Outcome.returned (-1), stateAtFailure env k s⟩)
    ∨ (5 < num_pairs.toNat ∧ (∀ j, j < 5 → PairOk env j) ∧ (env.pipe 5).isSome = true
        ∧ (env.forkProducer 5).isSome = true
        ∧ run_multiple_pairs env num_pairs =
            ⟨Outcome.outOfBounds 10 (env.producerPid 5), stateAtOverflow env 5⟩) := by
  have h := pairs_from_cases env num_pairs.toNat 0 (by omega) (fun j hj => absurd hj (by omega))
  rw [stateAfter_zero] at h
  simp only [Nat.zero_add] at h
  rcases h with ⟨a1, a2, a3⟩ | ⟨k, s, _, hk2, hk3, hk4, hk5, hk6⟩ | ⟨c1, c2, c3, c4, c5⟩
  · refine Or.inl ⟨a1, by omega, ?_⟩
    simp [run_multiple_pairs, a3]
  · refine Or.inr (Or.inl ⟨k, s, hk2, hk3, hk4, hk5, ?_⟩)
    simp [run_multiple_pairs, hk6]
  · refine Or.inr (Or.inr ⟨c1, c2, c3, c4, ?_⟩)
    simp [run_multiple_pairs, c5]

/-- The run in which every pair is spawned: at most 5 pairs. -/
theorem run_multiple_pairs_all_ok (env : Env) (num_pairs : Int)
    (hok : ∀ j, j < num_pairs.toNat → PairOk env j) (hn : num_pairs.toNat ≤ 5) :
    run_multiple_pairs env num_pairs =
      ⟨Outcome.returned 0, (stateAfter env num_pairs.toNat).reapAll env⟩ := by
  rcases run_multiple_pairs_cases env num_pairs with ⟨_, _, a3⟩
    | ⟨k, s, hk2, _, hk4, _, _⟩ | ⟨c1, _, _, _, _⟩
  · exact a3
  · exact absurd (hok k hk2) (failsAt_not_pairOk env k s hk4)
  · omega

/-- The run whose first failing call is the call `s` of pair `i`, with the
identities collected so far fitting in `pids`. -/
theorem run_multiple_pairs_first_failure (env : Env) (num_pairs : Int) (i : Nat) (s : Stage)
    (hi : i < num_pairs.toNat) (hprev : ∀ j, j < i → PairOk env j) (hf : FailsAt env i s)
    (hcap : 2 * i + s.collected ≤ PIDS_CAPACITY) :
    run_multiple_pairs env num_pairs = ⟨Outcome.returned (-1), stateAtFailure env i s⟩ := by
  rcases run_multiple_pairs_cases env num_pairs with ⟨a1, _, _⟩
    | ⟨k, t, _, hk3, hk4, _, hk6⟩ | ⟨_, c2, c3, c4, _⟩
  · exact absurd (a1 i hi) (failsAt_not_pairOk env i s hf)
  · have hki : k = i := by
      rcases Nat.lt_trichotomy k i with h | h | h
      · exact absurd (hprev k h) (failsAt_not_pairOk env k t hk4)
      · exact h
      · exact absurd (hk3 i h) (failsAt_not_pairOk env i s hf)
    subst hki
    rw [failsAt_unique env k s t hf hk4]
    exact hk6
  · exfalso
    by_cases h5 : i < 5
    · exact failsAt_not_pairOk env i s hf (c2 i h5)
    · have hi5 : i = 5 := by
        cases s <;> simp only [Stage.collected, PIDS_CAPACITY] at hcap <;> omega
      subst hi5
      cases s with
      | pipe => simp [FailsAt] at hf; simp [hf] at c3
      | producerFork => obtain ⟨_, h⟩ := hf; simp [h] at c4
      | consumerFork => simp only [Stage.collected, PIDS_CAPACITY] at hcap; omega

/-- The run of `run_basic_demo` in which the three calls succeed. -/
theorem run_basic_demo_ok (env : Env) (hok : PairOk env 0) :
    run_basic_demo env = ⟨Outcome.returned 0, basicStateDone env⟩ := by
  obtain ⟨h1, h2, h3⟩ := hok
  have e1 := env_pipe_some env 0 h1
  have e2 := env_forkProducer_some env 0 h2
  have e3 := env_forkConsumer_some env 0 h3
  by_cases hp : (env.waitpid (env.producerPid 0)).printed = true <;>
  by_cases hc : (env.waitpid (env.consumerPid 0)).printed = true <;>
  simp [run_basic_demo, e1, e2, e3, Coord.init, Coord.openPipe, Coord.spawn, Coord.close,
    Coord.waitReport, lookupFd, closeIn, basicStateDone, basicProducerChild,
    basicConsumerChild, readHandle, writeHandle, waitsFor, hp, hc, List.filter_cons]

/-- The run of `run_basic_demo` in which the call `s` fails. -/
theorem run_basic_demo_fails (env : Env) (s : Stage) (hf : FailsAt env 0 s) :
    run_basic_demo env = ⟨Outcome.returned (-1), basicStateAtFailure env s⟩ := by
  cases s with
  | pipe =>
    simp only [FailsAt] at hf
    simp [run_basic_demo, hf, Coord.init, Coord.perror, basicStateAtFailure, waitsFor]
  | producerFork =>
    obtain ⟨h1, h2⟩ := hf
    have e1 := env_pipe_some env 0 h1
    simp [run_basic_demo, e1, h2, Coord.init, Coord.openPipe, Coord.close, Coord.perror,
      lookupFd, closeIn, basicStateAtFailure, readHandle, writeHandle, waitsFor]
  | consumerFork =>
    obtain ⟨h1, h2, h3⟩ := hf
    have e1 := env_pipe_some env 0 h1
    have e2 := env_forkProducer_some env 0 h2
    simp [run_basic_demo, e1, e2, h3, Coord.init, Coord.openPipe, Coord.spawn, Coord.close,
      Coord.wait, Coord.perror, lookupFd, closeIn, basicStateAtFailure, basicProducerChild,
      readHandle, writeHandle, waitsFor]

/-- Either the three calls of pair `i` succeed or one of them is the first to fail. -/
theorem pairOk_or_failsAt (env : Env) (i : Nat) : PairOk env i ∨ ∃ s, FailsAt env i s := by
  by_cases h1 : (env.pipe i).isSome = true
  · by_cases h2 : (env.forkProducer i).isSome = true
    · by_cases h3 : (env.forkConsumer i).isSome = true
      · exact Or.inl ⟨h1, h2, h3⟩
      · exact Or.inr ⟨Stage.consumerFork, h1, h2, by simpa using h3⟩
    · exact Or.inr ⟨Stage.producerFork, h1, by simpa using h2⟩
  · exact Or.inr ⟨Stage.pipe, by simpa [FailsAt] using h1⟩

theorem collect_map {α β : Type} (g : α → β) (f : Nat → List α) :
    ∀ k, (collect f k).map g = collect (fun j => (f j).map g) k := by
  intro k
  induction k with
  | zero => rfl
  | succ k ih => simp [collect, ih]

theorem stateAfter_children_pids (env : Env) (k : Nat) :
    (stateAfter env k).children.map Child.pid = (stateAfter env k).pids := by
  simp only [stateAfter]
  rw [collect_map]
  rfl

/-! ## The claims on the coordinator -/

/-- C5. Whenever a pipe creation or a fork fails inside `run_multiple_pairs`
at pair `i` (the coordinator meets the failure of the call `s` of pair `i`),
the function returns -1, has forked exactly the workers of pairs `0 .. i - 1`
(and the producer of pair `i` when it is the consumer fork that failed), so no
further process, and has waited once on each identity collected, in collection
order; the coordinator meets the failure whenever the calls before it succeed
and the identities collected so far fit in `pids`. The same holds inside
`run_basic_demo`. Conversely each function returns 0 only when every pipe and
fork of every pair succeeded. -/
theorem spawn_failure_returns_minus_one_after_reaping :
    (∀ (env : Env) (num_pairs : Int) (i : Nat) (s : Stage),
        (i, s) ∈ (run_multiple_pairs env num_pairs).final.failed →
        FailsAt env i s ∧ (i : Int) < num_pairs
        ∧ (run_multiple_pairs env num_pairs).outcome = Outcome.returned (-1)
        ∧ (run_multiple_pairs env num_pairs).final.children =
            collect (fun j => [producerChild env j, consumerChild env j]) i ++
              (if s = Stage.consumerFork then [producerChild env i] else [])
        ∧ (run_multiple_pairs env num_pairs).final.pids =
            (run_multiple_pairs env num_pairs).final.children.map Child.pid
        ∧ (run_multiple_pairs env num_pairs).final.waits =
            waitsFor env ((run_multiple_pairs env num_pairs).final.children.map Child.pid))
    ∧ (∀ (env : Env) (num_pairs : Int) (i : Nat) (s : Stage),
        (i : Int) < num_pairs → (∀ j, j < i → PairOk env j) → FailsAt env i s →
        2 * i + s.collected ≤ PIDS_CAPACITY →
        (run_multiple_pairs env num_pairs).final.failed = [(i, s)])
    ∧ (∀ (env : Env) (i : Nat) (s : Stage), (i, s) ∈ (run_basic_demo env).final.failed →
        FailsAt env 0 s ∧ i = 0
        ∧ (run_basic_demo env).outcome = Outcome.returned (-1)
        ∧ (run_basic_demo env).final.children =
            (if s = Stage.consumerFork then [basicProducerChild env] else [])
        ∧ (run_basic_demo env).final.waits =
            waitsFor env ((run_basic_demo env).final.children.map Child.pid))
    ∧ (∀ (env : Env) (s : Stage), FailsAt env 0 s →
        (run_basic_demo env).final.failed = [(0, s)])
    ∧ (∀ (env : Env) (num_pairs : Int),
        (run_multiple_pairs env num_pairs).outcome = Outcome.returned 0 →
        ∀ j : Nat, (j : Int) < num_pairs → PairOk env j)
    ∧ (∀ env : Env, (run_basic_demo env).outcome = Outcome.returned 0 → PairOk env 0) := by
  refine ⟨?_, ?_, ?_, ?_, ?_, ?_⟩
  · intro env num_pairs i s hmem
    rcases run_multiple_pairs_cases env num_pairs with ⟨_, _, a3⟩
      | ⟨k, t, hk1, _, hk4, _, hk⟩ | ⟨_, _, _, _, hc⟩
    · rw [a3, reapAll_eq] at hmem
      simp [stateAfter] at hmem
    · rw [hk] at hmem ⊢
      simp only [stateAtFailure, List.mem_singleton, Prod.mk.injEq] at hmem
      obtain ⟨hi, hs⟩ := hmem
      subst hi
      subst hs
      have hpids := stateAfter_children_pids env i
      have hkids : (stateAtFailure env i s).children.map Child.pid =
          (stateAtFailure env i s).pids := by
        cases s <;> simp [stateAtFailure, hpids, producerChild]
      refine ⟨hk4, by omega, rfl, rfl, hkids.symm, ?_⟩
      rw [hkids]
      rfl
    · rw [hc] at hmem
      simp [stateAtOverflow, stateAfter] at hmem
  · intro env num_pairs i s hi hprev hf hcap
    have hi' : i < num_pairs.toNat := by omega
    rw [run_multiple_pairs_first_failure env num_pairs i s hi' hprev hf hcap]
    rfl
  · intro env i s hmem
    rcases pairOk_or_failsAt env 0 with hok | ⟨t, hf⟩
    · rw [run_basic_demo_ok env hok] at hmem
      simp [basicStateDone] at hmem
    · rw [run_basic_demo_fails env t hf] at hmem ⊢
      simp only [basicStateAtFailure, List.mem_singleton, Prod.mk.injEq] at hmem
      obtain ⟨hi, hs⟩ := hmem
      subst hs
      refine ⟨hf, hi, rfl, rfl, ?_⟩
      cases s <;> simp [basicStateAtFailure, basicProducerChild]
  · intro env s hf
    rw [run_basic_demo_fails env s hf]
    rfl
  · intro env num_pairs h0 j hj
    rcases run_multiple_pairs_cases env num_pairs with ⟨a1, _, _⟩
      | ⟨k, s, _, _, _, _, hk⟩ | ⟨_, _, _, _, hc⟩
    · exact a1 j (by omega)
    · rw [hk] at h0
      simp at h0
    · rw [hc] at h0
      simp at h0
  · intro env h0
    rcases pairOk_or_failsAt env 0 with hok | ⟨s, hf⟩
    · exact hok
    · rw [run_basic_demo_fails env s hf] at h0
      simp at h0

/-- Witness for C5: 3 pairs requested, the consumer fork of pair 1 fails; the
basic demo with a failing consumer fork; and the successful runs. -/
theorem spawn_failure_returns_minus_one_after_reaping_witness :
    (run_multiple_pairs (envFailAt 1 Stage.consumerFork) 3).final.failed
        = [(1, Stage.consumerFork)]
    ∧ (run_multiple_pairs (envFailAt 1 Stage.consumerFork) 3).outcome = Outcome.returned (-1)
    ∧ (run_multiple_pairs (envFailAt 1 Stage.consumerFork) 3).final.children.map Child.pid
        = [100, 101, 102]
    ∧ (run_multiple_pairs (envFailAt 1 Stage.consumerFork) 3).final.waits =
        [(100, WaitResult.exited 0), (101, WaitResult.exited 0), (102, WaitResult.exited 0)]
    ∧ (run_basic_demo (envFailAt 0 Stage.consumerFork)).outcome = Outcome.returned (-1)
    ∧ (run_basic_demo (envFailAt 0 Stage.consumerFork)).final.waits =
        [(100, WaitResult.exited 0)]
    ∧ PairOk envAllOk 1
    ∧ PairOk envAllOk 0 := by
  have h := spawn_failure_returns_minus_one_after_reaping
  have h0 := h.2.1 (envFailAt 1 Stage.consumerFork) 3 1 Stage.consumerFork (by decide)
    (by decide) (by decide) (by decide)
  have h1 := h.1 (envFailAt 1 Stage.consumerFork) 3 1 Stage.consumerFork (by decide)
  have h2 := h.2.2.1 (envFailAt 0 Stage.consumerFork) 0 Stage.consumerFork (by decide)
  have h3 := h.2.2.2.2.1 envAllOk 2 (by decide) 1 (by decide)
  have h4 := h.2.2.2.2.2 envAllOk (by decide)
  refine ⟨h0, h1.2.2.1, ?_, ?_, h2.2.2.1, ?_, h3, h4⟩
  · rw [h1.2.2.2.1]; decide
  · rw [h1.2.2.2.2.2, h1.2.2.2.1]; decide
  · rw [h2.2.2.2.2, h2.2.2.2.1]; decide

/-- C6. For N ≤ 5 (in particular 1 ≤ N ≤ 5), a call `run_multiple_pairs(N)`
in which every pipe and fork succeeds returns 0 having collected exactly 2N
identities, in the order producer of pair 0, consumer of pair 0, .., consumer
of pair N-1 (the order in which the children were forked); the reaping loop
makes exactly 2N `waitpid` calls, one per collected identity and in collection
order, each with its outcome, and prints one outcome per identity whose
`waitpid` reports an exit or a signal. -/
theorem run_multiple_pairs_collects_and_reaps_in_order (env : Env) (N : Nat)
    (h5 : N ≤ 5) (hok : ∀ j, j < N → PairOk env j) :
    (run_multiple_pairs env N).outcome = Outcome.returned 0
    ∧ (run_multiple_pairs env N).final.pids =
        collect (fun j => [env.producerPid j, env.consumerPid j]) N
    ∧ (run_multiple_pairs env N).final.pids.length = 2 * N
    ∧ (run_multiple_pairs env N).final.children =
        collect (fun j => [producerChild env j, consumerChild env j]) N
    ∧ (run_multiple_pairs env N).final.children.map Child.pid =
        (run_multiple_pairs env N).final.pids
    ∧ (run_multiple_pairs env N).final.waits =
        (run_multiple_pairs env N).final.pids.map (fun pid => (pid, env.waitpid pid))
    ∧ (run_multiple_pairs env N).final.waits.length = 2 * N
    ∧ (run_multiple_pairs env N).final.reports =
        (run_multiple_pairs env N).final.waits.filter (fun x => x.2.printed) := by
  have hN : (N : Int).toNat = N := Int.toNat_natCast N
  have hrun := run_multiple_pairs_all_ok env N (by rw [hN]; exact hok) (by rw [hN]; exact h5)
  rw [hN] at hrun
  rw [hrun, reapAll_eq]
  have hlen := stateAfter_pids_length env N
  have hkids := stateAfter_children_pids env N
  refine ⟨rfl, rfl, hlen, rfl, hkids, ?_, ?_, ?_⟩
  · simp [stateAfter, waitsFor]
  · simp only [waitsFor, List.length_append, List.length_map, hlen]
    simp [stateAfter]
  · simp [stateAfter]

/-- Witness for C6: three pairs, every call succeeding. -/
theorem run_multiple_pairs_collects_and_reaps_in_order_witness :
    (run_multiple_pairs envAllOk 3).outcome = Outcome.returned 0
    ∧ (run_multiple_pairs envAllOk 3).final.pids = [100, 101, 102, 103, 104, 105]
    ∧ (run_multiple_pairs envAllOk 3).final.waits.map Prod.fst =
        [100, 101, 102, 103, 104, 105]
    ∧ (run_multiple_pairs envAllOk 3).final.waits.length = 2 * 3 := by
  have h := run_multiple_pairs_collects_and_reaps_in_order envAllOk 3 (by decide)
    (by decide)
  refine ⟨h.1, ?_, ?_, h.2.2.2.2.2.2.1⟩
  · decide
  · decide

/-- C10. With `num_pairs ≤ 5`, whatever the calls answer, `run_multiple_pairs`
returns without a store past the end of `pids` and with at most 10 identities
collected (`pid_count ≤ 10`, every store at an index in 0..9); with
`num_pairs > 5` and every pipe and fork succeeding, the run ends at the store
of the producer of pair 5 at index 10, which is not below the capacity of the
array. -/
theorem run_multiple_pairs_pids_bounds :
    (∀ (env : Env) (num_pairs : Int), num_pairs ≤ 5 →
        (∃ code, (run_multiple_pairs env num_pairs).outcome = Outcome.returned code)
        ∧ (run_multiple_pairs env num_pairs).final.pids.length ≤ PIDS_CAPACITY)
    ∧ (∀ (env : Env) (num_pairs : Int), 5 < num_pairs →
        (∀ j : Nat, (j : Int) < num_pairs → PairOk env j) →
        (run_multiple_pairs env num_pairs).outcome =
            Outcome.outOfBounds 10 (env.producerPid 5)
        ∧ env.forkProducer 5 = some (env.producerPid 5)
        ∧ ¬ 10 < PIDS_CAPACITY
        ∧ (run_multiple_pairs env num_pairs).final.pids.length = 10) := by
  constructor
  · intro env num_pairs hn
    rcases run_multiple_pairs_cases env num_pairs with ⟨_, _, a3⟩
      | ⟨k, s, hk1, _, _, hk5, hk⟩ | ⟨c1, _, _, _, _⟩
    · rw [a3, reapAll_eq]
      refine ⟨⟨0, rfl⟩, ?_⟩
      have hlen := stateAfter_pids_length env num_pairs.toNat
      simp only [hlen, PIDS_CAPACITY]
      omega
    · rw [hk]
      refine ⟨⟨-1, rfl⟩, ?_⟩
      have hlen := stateAfter_pids_length env k
      cases s <;> simp [stateAtFailure, hlen, Stage.collected] at hk5 ⊢ <;> omega
    · omega
  · intro env num_pairs hn hok
    have h5 : PairOk env 5 := hok 5 (by omega)
    rcases run_multiple_pairs_cases env num_pairs with ⟨_, a2, _⟩
      | ⟨k, s, hk1, _, hk4, _, _⟩ | ⟨_, _, _, c4, hc⟩
    · omega
    · exact absurd (hok k (by omega)) (failsAt_not_pairOk env k s hk4)
    · rw [hc]
      refine ⟨rfl, env_forkProducer_some env 5 c4, by decide, ?_⟩
      have hlen := stateAfter_pids_length env 5
      simpa [stateAtOverflow] using hlen

/-- Witness for C10: 5 pairs with a failing pipe at pair 3, and 7 pairs with
every call succeeding. -/
theorem run_multiple_pairs_pids_bounds_witness :
    (∃ code, (run_multiple_pairs (envFailAt 3 Stage.pipe) 5).outcome = Outcome.returned code)
    ∧ (run_multiple_pairs (envFailAt 3 Stage.pipe) 5).final.pids.length ≤ PIDS_CAPACITY
    ∧ (run_multiple_pairs envAllOk 7).outcome = Outcome.outOfBounds 10 110 := by
  have h := run_multiple_pairs_pids_bounds
  have ha := h.1 (envFailAt 3 Stage.pipe) 5 (by decide)
  have hb := h.2 envAllOk 7 (by decide) (fun _ _ => ⟨rfl, rfl, rfl⟩)
  exact ⟨ha.1, ha.2, hb.1⟩

theorem wrap_start_value (i : Nat) (hi : i ≤ 5) :
    intAdd (intMul (i : Int) 5) 1 = (i : Int) * 5 + 1 := by
  unfold intAdd intMul wrapInt
  omega

theorem wrap_pair_id (i : Nat) (hi : i ≤ 5) : intAdd (i : Int) 1 = (i : Int) + 1 := by
  unfold intAdd wrapInt
  omega

theorem consumerChild_eq (env : Env) (i : Nat) (hfd : env.readFd i ≠ env.writeFd i) :
    consumerChild env i = ⟨env.consumerPid i, [readHandle env i],
      Role.consumer (env.readFd i) (intAdd i 1)⟩ := by
  simp [consumerChild, closeIn, readHandle, writeHandle, hfd]

theorem collect_two_length {α : Type} (a b : Nat → α) (k : Nat) :
    (collect (fun j => [a j, b j]) k).length = 2 * k :=
  collect_length_two (fun j => [a j, b j]) (fun _ => rfl) k

/-- The state the loop of `run_multiple_pairs` is in after `k` iterations that
all went through is `stateAfter env k`, and it is only reached with `k ≤ 5`. -/
theorem pairs_from_next (env : Env) (k : Nat) (st : Coord)
    (h : pairs_from env k 0 Coord.init = Step.next st) :
    st = stateAfter env k ∧ (∀ j, j < k → PairOk env j) ∧ k ≤ 5 := by
  have hc := pairs_from_cases env k 0 (by omega) (fun j hj => absurd hj (by omega))
  rw [stateAfter_zero] at hc
  simp only [Nat.zero_add] at hc
  rcases hc with ⟨a1, a2, a3⟩ | ⟨_, _, _, _, _, _, _, hk⟩ | ⟨_, _, _, _, hk⟩
  · rw [a3] at h
    injection h with h
    exact ⟨h.symm, a1, by omega⟩
  · rw [hk] at h
    cases h
  · rw [hk] at h
    cases h

/-- C7. In the state reached once pair `i` has been spawned successfully by
`run_multiple_pairs` (the loop has gone through iterations `0 .. i`), for any
`i`, the coordinator holds no channel handle, so neither end of the channel of
pair `i`; the producer of pair `i` holds exactly the write end of channel `i`
and the consumer exactly its read end, so neither holds a handle of the
channel of an earlier pair. The same holds for `run_basic_demo` when it has
spawned its pair. The two descriptors of a pipe are distinct numbers. -/
theorem spawned_pair_holds_only_its_own_ends :
    (∀ (env : Env) (i : Nat) (st : Coord),
        pairs_from env (i + 1) 0 Coord.init = Step.next st →
        env.readFd i ≠ env.writeFd i →
        st.table = []
        ∧ env.pipe i = some (env.readFd i, env.writeFd i)
        ∧ env.forkProducer i = some (env.producerPid i)
        ∧ env.forkConsumer i = some (env.consumerPid i)
        ∧ st.children.drop (2 * i) =
            [⟨env.producerPid i, [⟨env.writeFd i, i, Side.write⟩],
                Role.producer (env.writeFd i) ((i : Int) * 5 + 1)⟩,
             ⟨env.consumerPid i, [⟨env.readFd i, i, Side.read⟩],
                Role.consumer (env.readFd i) ((i : Int) + 1)⟩])
    ∧ (∀ env : Env, (run_basic_demo env).outcome = Outcome.returned 0 →
        env.readFd 0 ≠ env.writeFd 0 →
        (run_basic_demo env).final.table = []
        ∧ env.pipe 0 = some (env.readFd 0, env.writeFd 0)
        ∧ env.forkProducer 0 = some (env.producerPid 0)
        ∧ env.forkConsumer 0 = some (env.consumerPid 0)
        ∧ (run_basic_demo env).final.children =
            [⟨env.producerPid 0, [⟨env.writeFd 0, 0, Side.write⟩],
                Role.producer (env.writeFd 0) 1⟩,
             ⟨env.consumerPid 0, [⟨env.readFd 0, 0, Side.read⟩],
                Role.consumer (env.readFd 0) 0⟩]) := by
  constructor
  · intro env i st h hfd
    obtain ⟨hst, hok, hi⟩ := pairs_from_next env (i + 1) st h
    obtain ⟨h1, h2, h3⟩ := hok i (by omega)
    subst hst
    refine ⟨rfl, env_pipe_some env i h1, env_forkProducer_some env i h2,
      env_forkConsumer_some env i h3, ?_⟩
    have hlen : (collect (fun j => [producerChild env j, consumerChild env j]) i).length
        = 2 * i := collect_two_length _ _ i
    simp only [stateAfter, collect]
    rw [List.drop_append_of_le_length (by omega), List.drop_of_length_le (by omega)]
    rw [producerChild_eq, consumerChild_eq env i hfd, wrap_start_value i (by omega),
      wrap_pair_id i (by omega)]
    rfl
  · intro env h0 hfd
    rcases pairOk_or_failsAt env 0 with hok | ⟨s, hf⟩
    · rw [run_basic_demo_ok env hok]
      obtain ⟨h1, h2, h3⟩ := hok
      refine ⟨rfl, env_pipe_some env 0 h1, env_forkProducer_some env 0 h2,
        env_forkConsumer_some env 0 h3, ?_⟩
      simp [basicStateDone, basicProducerChild, basicConsumerChild, closeIn, readHandle,
        writeHandle, hfd]
    · rw [run_basic_demo_fails env s hf] at h0
      simp at h0

/-- Witness for C7: pair 1 of a run in which every call succeeds, and the
basic demo. -/
theorem spawned_pair_holds_only_its_own_ends_witness :
    (stateAfter envAllOk 2).table = []
    ∧ (stateAfter envAllOk 2).children.drop (2 * 1) =
        [⟨102, [⟨4, 1, Side.write⟩], Role.producer 4 6⟩,
         ⟨103, [⟨3, 1, Side.read⟩], Role.consumer 3 2⟩]
    ∧ (run_basic_demo envAllOk).final.children =
        [⟨100, [⟨4, 0, Side.write⟩], Role.producer 4 1⟩,
         ⟨101, [⟨3, 0, Side.read⟩], Role.consumer 3 0⟩] := by
  have h := spawned_pair_holds_only_its_own_ends
  have ha := h.1 envAllOk 1 (stateAfter envAllOk 2) (by decide) (by decide)
  have hb := h.2 envAllOk (by decide) (by decide)
  exact ⟨ha.1, ha.2.2.2.2, hb.2.2.2.2⟩

theorem handles_chan_lt (env : Env) (k : Nat) (h : Handle)
    (hh : h ∈ collect (fun j => [readHandle env j, writeHandle env j]) k) : h.chan < k := by
  induction k with
  | zero => simp [collect] at hh
  | succ k ih =>
    simp only [collect, List.mem_append, List.mem_cons, List.mem_singleton,
      List.not_mem_nil, or_false] at hh
    rcases hh with hh | hh | hh
    · exact Nat.lt_succ_of_lt (ih hh)
    · subst hh; simp [readHandle]
    · subst hh; simp [writeHandle]

theorem pair_handles_nodup (env : Env) (k : Nat) :
    [readHandle env k, writeHandle env k].Nodup := by
  simp [readHandle, writeHandle]

theorem handles_nodup_succ (env : Env) (k : Nat)
    (hk : (collect (fun j => [readHandle env j, writeHandle env j]) k).Nodup) :
    (collect (fun j => [readHandle env j, writeHandle env j]) k ++
      [readHandle env k, writeHandle env k]).Nodup := by
  refine List.Nodup.append hk (pair_handles_nodup env k) ?_
  intro h h1 h2
  have hlt := handles_chan_lt env k h h1
  simp only [List.mem_cons, List.mem_singleton, List.not_mem_nil, or_false] at h2
  rcases h2 with h2 | h2 <;> subst h2 <;> simp [readHandle, writeHandle] at hlt

theorem handles_nodup (env : Env) (k : Nat) :
    (collect (fun j => [readHandle env j, writeHandle env j]) k).Nodup := by
  induction k with
  | zero => simp [collect]
  | succ k ih => exact handles_nodup_succ env k ih

/-- C8. On every return path of `run_multiple_pairs` and of `run_basic_demo`,
with status 0 or -1, the coordinator holds no channel handle (none is left
open), it has made no `close` call on a descriptor that was not open, and the
handles it released are exactly the handles its `pipe` calls created, each
released once. `run_basic_demo` always returns. -/
theorem coordinator_closes_every_end_exactly_once :
    (∀ (env : Env) (num_pairs code : Int),
        (run_multiple_pairs env num_pairs).outcome = Outcome.returned code →
        (run_multiple_pairs env num_pairs).final.table = []
        ∧ (run_multiple_pairs env num_pairs).final.badCloses = 0
        ∧ (run_multiple_pairs env num_pairs).final.closed =
            (run_multiple_pairs env num_pairs).final.created
        ∧ ∀ h ∈ (run_multiple_pairs env num_pairs).final.created,
            (run_multiple_pairs env num_pairs).final.closed.count h = 1)
    ∧ (∀ env : Env,
        (∃ code, (run_basic_demo env).outcome = Outcome.returned code)
        ∧ (run_basic_demo env).final.table = []
        ∧ (run_basic_demo env).final.badCloses = 0
        ∧ (run_basic_demo env).final.closed = (run_basic_demo env).final.created
        ∧ ∀ h ∈ (run_basic_demo env).final.created,
            (run_basic_demo env).final.closed.count h = 1) := by
  constructor
  · intro env num_pairs code hret
    rcases run_multiple_pairs_cases env num_pairs with ⟨_, _, a3⟩
      | ⟨k, s, _, _, _, _, hk⟩ | ⟨_, _, _, _, hc⟩
    · rw [a3, reapAll_eq]
      refine ⟨rfl, rfl, rfl, ?_⟩
      intro h hh
      exact List.count_eq_one_of_mem (handles_nodup env _) hh
    · rw [hk]
      refine ⟨rfl, rfl, rfl, ?_⟩
      intro h hh
      refine List.count_eq_one_of_mem ?_ hh
      simp only [stateAtFailure, stateAfter]
      by_cases hs : s = Stage.pipe
      · simpa [hs] using handles_nodup env k
      · simpa [hs] using handles_nodup_succ env k (handles_nodup env k)
    · rw [hc] at hret
      simp at hret
  · intro env
    rcases pairOk_or_failsAt env 0 with hok | ⟨s, hf⟩
    · rw [run_basic_demo_ok env hok]
      refine ⟨⟨0, rfl⟩, rfl, rfl, rfl, ?_⟩
      intro h hh
      exact List.count_eq_one_of_mem (pair_handles_nodup env 0) hh
    · rw [run_basic_demo_fails env s hf]
      refine ⟨⟨-1, rfl⟩, rfl, rfl, rfl, ?_⟩
      intro h hh
      refine List.count_eq_one_of_mem ?_ hh
      simp only [basicStateAtFailure]
      by_cases hs : s = Stage.pipe
      · simp [hs]
      · simpa [hs] using pair_handles_nodup env 0

/-- Witness for C8: three pairs requested and the producer fork of pair 2
failing. -/
theorem coordinator_closes_every_end_exactly_once_witness :
    (run_multiple_pairs (envFailAt 2 Stage.producerFork) 3).outcome = Outcome.returned (-1)
    ∧ (run_multiple_pairs (envFailAt 2 Stage.producerFork) 3).final.table = []
    ∧ (run_multiple_pairs (envFailAt 2 Stage.producerFork) 3).final.badCloses = 0
    ∧ (run_multiple_pairs (envFailAt 2 Stage.producerFork) 3).final.closed =
        (run_multiple_pairs (envFailAt 2 Stage.producerFork) 3).final.created
    ∧ (run_multiple_pairs (envFailAt 2 Stage.producerFork) 3).final.created =
        [⟨3, 0, Side.read⟩, ⟨4, 0, Side.write⟩, ⟨3, 1, Side.read⟩, ⟨4, 1, Side.write⟩,
         ⟨3, 2, Side.read⟩, ⟨4, 2, Side.write⟩] := by
  have h := (coordinator_closes_every_end_exactly_once).1
    (envFailAt 2 Stage.producerFork) 3 (-1) (by decide)
  exact ⟨by decide, h.1, h.2.1, h.2.2.1, by decide⟩

theorem collect_children_get (env : Env) :
    ∀ (k idx : Nat) (c : Child),
      (collect (fun j => [producerChild env j, consumerChild env j]) k)[idx]? = some c →
      c = if idx % 2 = 0 then producerChild env (idx / 2) else consumerChild env (idx / 2) := by
  intro k
  induction k with
  | zero => intro idx c h; simp [collect] at h
  | succ k ih =>
    intro idx c h
    have hlen : (collect (fun j => [producerChild env j, consumerChild env j]) k).length
        = 2 * k := collect_two_length _ _ k
    simp only [collect] at h
    by_cases hlt : idx < 2 * k
    · rw [List.getElem?_append_left (by omega)] at h
      exact ih idx c h
    · rw [List.getElem?_append_right (by omega), hlen] at h
      have hidx : idx = 2 * k ∨ idx = 2 * k + 1 := by
        rcases Nat.lt_or_ge (idx - 2 * k) 2 with h2 | h2
        · omega
        · rw [List.getElem?_eq_none (by simpa using h2)] at h
          cases h
      rcases hidx with hidx | hidx
      · subst hidx
        have e1 : 2 * k % 2 = 0 := by omega
        have e2 : 2 * k / 2 = k := by omega
        simp only [Nat.sub_self, List.getElem?_cons_zero, Option.some.injEq] at h
        rw [e1, e2, if_pos rfl]
        exact h.symm
      · subst hidx
        have e0 : 2 * k + 1 - 2 * k = 1 := by omega
        have e1 : ¬ ((2 * k + 1) % 2 = 0) := by omega
        have e2 : (2 * k + 1) / 2 = k := by omega
        rw [e0] at h
        simp only [List.getElem?_cons_succ, List.getElem?_cons_zero, Option.some.injEq] at h
        rw [if_neg e1, e2]
        exact h.symm

theorem collect_children_producer_get (env : Env) (k idx : Nat) (c : Child)
    (extra : List Child) (hextra : extra = [] ∨ extra = [producerChild env k])
    (h : (collect (fun j => [producerChild env j, consumerChild env j]) k ++ extra)[idx]?
      = some c) :
    idx ≤ 2 * k
    ∧ c = if idx % 2 = 0 then producerChild env (idx / 2) else consumerChild env (idx / 2) := by
  have hlen : (collect (fun j => [producerChild env j, consumerChild env j]) k).length
      = 2 * k := collect_two_length _ _ k
  by_cases hlt : idx < 2 * k
  · rw [List.getElem?_append_left (by omega)] at h
    exact ⟨by omega, collect_children_get env k idx c h⟩
  · rw [List.getElem?_append_right (by omega), hlen] at h
    rcases hextra with he | he
    · subst he
      simp at h
    · subst he
      have hidx : idx = 2 * k := by
        rcases Nat.lt_or_ge (idx - 2 * k) 1 with h2 | h2
        · omega
        · rw [List.getElem?_eq_none (by simpa using h2)] at h
          cases h
      subst hidx
      have e1 : 2 * k % 2 = 0 := by omega
      have e2 : 2 * k / 2 = k := by omega
      simp only [Nat.sub_self, List.getElem?_cons_zero, Option.some.injEq] at h
      rw [e1, e2, if_pos rfl]
      exact ⟨le_refl _, h.symm⟩

theorem assignedRole_of_pattern (env : Env) (idx : Nat) (c : Child) (hidx : idx / 2 ≤ 5)
    (hc : c = if idx % 2 = 0 then producerChild env (idx / 2)
      else consumerChild env (idx / 2)) :
    c.role = assignedRole env idx := by
  subst hc
  unfold assignedRole
  by_cases h : idx % 2 = 0
  · simp only [h, if_true, producerChild, wrap_start_value (idx / 2) hidx]
  · simp only [h, if_false, consumerChild, wrap_pair_id (idx / 2) hidx]

/-- C9. In every run of `run_multiple_pairs`, the processes are forked in
increasing pair order, producer before consumer, and the process forked for
pair `i` runs `producer_process` with start value `i * 5 + 1`, resp.
`consumer_process` with identifying index `i + 1` (`assignedRole`); when every
call succeeds and `N ≤ 5`, both workers of each of the pairs `0 .. N - 1` are
started. For two pairs the workers are started with 1, 1, 6, 2; the producers
emit 1..5 and 6..10 and, in a successful run, the consumers report 15 and 40. -/
theorem run_multiple_pairs_assigns_start_values_and_ids :
    (∀ (env : Env) (num_pairs : Int) (k : Nat) (c : Child),
        (run_multiple_pairs env num_pairs).final.children[k]? = some c →
        c.role = assignedRole env k)
    ∧ (∀ (env : Env) (N : Nat), N ≤ 5 → (∀ j, j < N → PairOk env j) →
        (run_multiple_pairs env N).final.children.map Child.role =
          (List.range (2 * N)).map (assignedRole env))
    ∧ (∀ (env : Env) (wr : Nat → Int), PairOk env 0 → PairOk env 1 →
        (∀ i, i < NUM_VALUES → wr i = SIZEOF_INT) →
        (run_multiple_pairs env 2).final.children.map Child.role =
          [Role.producer (env.writeFd 0) 1, Role.consumer (env.readFd 0) 1,
           Role.producer (env.writeFd 1) 6, Role.consumer (env.readFd 1) 2]
        ∧ writtenValues (producer_process (env.writeFd 0) 1 wr) = [1, 2, 3, 4, 5]
        ∧ writtenValues (producer_process (env.writeFd 1) 6 wr) = [6, 7, 8, 9, 10]
        ∧ pairFinalSum (env.writeFd 0) (env.readFd 0) 1 1 wr = some 15
        ∧ pairFinalSum (env.writeFd 1) (env.readFd 1) 6 2 wr = some 40) := by
  refine ⟨?_, ?_, ?_⟩
  · intro env num_pairs k c h
    rcases run_multiple_pairs_cases env num_pairs with ⟨_, a2, a3⟩
      | ⟨i, s, _, _, _, hcap, hk⟩ | ⟨_, _, _, _, hc⟩
    · rw [a3, reapAll_eq] at h
      simp only [stateAfter] at h
      have hlen := collect_two_length (producerChild env) (consumerChild env) num_pairs.toNat
      have hk : k < 2 * num_pairs.toNat := by
        rw [← hlen]
        exact (List.getElem?_eq_some.mp h).1
      exact assignedRole_of_pattern env k c (by omega) (collect_children_get env _ k c h)
    · rw [hk] at h
      simp only [stateAtFailure, stateAfter] at h
      have hi : i ≤ 5 := by
        unfold PIDS_CAPACITY at hcap
        omega
      obtain ⟨hle, hpat⟩ := collect_children_producer_get env i k c _
        (by by_cases hs : s = Stage.consumerFork <;> simp [hs]) h
      exact assignedRole_of_pattern env k c (by omega) hpat
    · rw [hc] at h
      simp only [stateAtOverflow, stateAfter] at h
      obtain ⟨hle, hpat⟩ := collect_children_producer_get env 5 k c _ (Or.inr rfl) h
      exact assignedRole_of_pattern env k c (by omega) hpat
  · intro env N hN hok
    have hNat : (N : Int).toNat = N := Int.toNat_natCast N
    have hrun := run_multiple_pairs_all_ok env N (by rw [hNat]; exact hok)
      (by rw [hNat]; exact hN)
    rw [hNat] at hrun
    rw [hrun, reapAll_eq]
    simp only [stateAfter]
    have hlen := collect_two_length (producerChild env) (consumerChild env) N
    apply List.ext_getElem?
    intro idx
    by_cases hidx : idx < 2 * N
    · have h1 : idx < (collect (fun j => [producerChild env j, consumerChild env j]) N).length := by
        omega
      rw [List.getElem?_map, List.getElem?_map, List.getElem?_eq_getElem h1,
        List.getElem?_eq_getElem (by simpa using hidx)]
      simp only [Option.map_some', List.getElem_range, Option.some.injEq]
      exact assignedRole_of_pattern env idx _ (by omega)
        (collect_children_get env N idx _ (List.getElem?_eq_getElem h1))
    · rw [List.getElem?_eq_none (by simp; omega), List.getElem?_eq_none (by simp; omega)]
  · intro env wr hok0 hok1 hwr
    have hrun := run_multiple_pairs_all_ok env 2
      (by
        intro j hj
        have hj2 : j < 2 := hj
        interval_cases j
        · exact hok0
        · exact hok1)
      (by decide)
    refine ⟨?_, ?_, ?_, ?_, ?_⟩
    · rw [hrun, reapAll_eq]
      have e : (2 : Int).toNat = 2 := rfl
      simp only [e, stateAfter, collect, List.nil_append, List.cons_append, List.map_cons,
        List.map_nil, producerChild, consumerChild]
      have s0 := wrap_start_value 0 (by decide)
      have s1 := wrap_start_value 1 (by decide)
      have p0 := wrap_pair_id 0 (by decide)
      have p1 := wrap_pair_id 1 (by decide)
      simp only [Nat.cast_zero, Nat.cast_one] at s0 s1 p0 p1
      simp only [Nat.cast_zero, Nat.cast_one, Nat.cast_ofNat, s0, s1, p0, p1]
      norm_num
    · rw [producer_process_all_ok_trace _ 1 wr hwr]
      simp only [writtenValues]
      decide
    · rw [producer_process_all_ok_trace _ 6 wr hwr]
      simp only [writtenValues]
      decide
    · rw [pairFinalSum_all_ok _ _ 1 1 wr hwr]
      decide
    · rw [pairFinalSum_all_ok _ _ 6 2 wr hwr]
      decide

/-- Witness for C9: two pairs, every call succeeding, every write returning 4. -/
theorem run_multiple_pairs_assigns_start_values_and_ids_witness :
    (run_multiple_pairs envAllOk 2).final.children.map Child.role =
        [Role.producer 4 1, Role.consumer 3 1, Role.producer 4 6, Role.consumer 3 2]
    ∧ writtenValues (producer_process 4 1 (fun _ => 4)) = [1, 2, 3, 4, 5]
    ∧ writtenValues (producer_process 4 6 (fun _ => 4)) = [6, 7, 8, 9, 10]
    ∧ pairFinalSum 4 3 1 1 (fun _ => 4) = some 15
    ∧ pairFinalSum 4 3 6 2 (fun _ => 4) = some 40
    ∧ (run_multiple_pairs envAllOk 2).final.children[3]? =
        some ⟨103, [⟨3, 1, Side.read⟩], Role.consumer 3 2⟩
    ∧ Role.consumer 3 2 = assignedRole envAllOk 3 := by
  have h := run_multiple_pairs_assigns_start_values_and_ids
  have hs := h.2.2 envAllOk (fun _ => 4) (by decide) (by decide) (fun _ _ => rfl)
  have hk : (run_multiple_pairs envAllOk 2).final.children[3]? =
      some ⟨103, [⟨3, 1, Side.read⟩], Role.consumer 3 2⟩ := by decide
  exact ⟨hs.1, hs.2.1, hs.2.2.1, hs.2.2.2.1, hs.2.2.2.2, hk, h.1 envAllOk 2 3 _ hk⟩

/-- C4. In a pair whose producer has every write answered by `sizeof(int)` and
whose channel delivers the records in FIFO order followed by end-of-stream,
the consumer reports start + (start+1) + (start+2) + (start+3) + (start+4)
computed in `int` arithmetic, which is the integer 5*start + 10 whenever that
is a value of an `int`; the pair of `run_basic_demo` has start value 1 and its
consumer reports 15. -/
theorem single_pair_final_sum :
    (∀ (write_fd read_fd : Fd) (start_num pair_id : Int) (wr : Nat → Int),
        (∀ i, i < NUM_VALUES → wr i = SIZEOF_INT) →
        pairFinalSum write_fd read_fd start_num pair_id wr =
            some (wrapInt (5 * start_num + 10))
        ∧ (INT_MIN ≤ 5 * start_num + 10 → 5 * start_num + 10 ≤ INT_MAX →
            pairFinalSum write_fd read_fd start_num pair_id wr =
                some (start_num + (start_num + 1) + (start_num + 2) + (start_num + 3)
                  + (start_num + 4))
            ∧ start_num + (start_num + 1) + (start_num + 2) + (start_num + 3)
                  + (start_num + 4) = 5 * start_num + 10))
    ∧ (∀ (env : Env) (wr : Nat → Int), PairOk env 0 →
        (∀ i, i < NUM_VALUES → wr i = SIZEOF_INT) →
        (run_basic_demo env).outcome = Outcome.returned 0
        ∧ (run_basic_demo env).final.children.map Child.role =
            [Role.producer (env.writeFd 0) 1, Role.consumer (env.readFd 0) 0]
        ∧ pairFinalSum (env.writeFd 0) (env.readFd 0) 1 0 wr = some 15) := by
  constructor
  · intro write_fd read_fd start_num pair_id wr hwr
    have hsum := pairFinalSum_all_ok write_fd read_fd start_num pair_id wr hwr
    refine ⟨hsum, ?_⟩
    intro hlo hhi
    have e : start_num + (start_num + 1) + (start_num + 2) + (start_num + 3)
        + (start_num + 4) = 5 * start_num + 10 := by ring
    rw [hsum, e, wrapInt_of_inRange _ hlo hhi]
    exact ⟨rfl, rfl⟩
  · intro env wr hok hwr
    rw [run_basic_demo_ok env hok]
    refine ⟨rfl, ?_, ?_⟩
    · simp [basicStateDone, basicProducerChild, basicConsumerChild]
    · rw [pairFinalSum_all_ok _ _ 1 0 wr hwr]
      decide

/-- Witness for C4: start value 1 in the basic demo, and start value 6. -/
theorem single_pair_final_sum_witness :
    pairFinalSum 4 3 6 2 (fun _ => 4) = some (6 + (6 + 1) + (6 + 2) + (6 + 3) + (6 + 4))
    ∧ (6 : Int) + (6 + 1) + (6 + 2) + (6 + 3) + (6 + 4) = 5 * 6 + 10
    ∧ (run_basic_demo envAllOk).outcome = Outcome.returned 0
    ∧ pairFinalSum (envAllOk.writeFd 0) (envAllOk.readFd 0) 1 0 (fun _ => 4) = some 15 := by
  have h := single_pair_final_sum
  have ha := (h.1 4 3 6 2 (fun _ => 4) (fun _ _ => rfl)).2 (by decide) (by decide)
  have hb := h.2 envAllOk (fun _ => 4) (by decide) (fun _ _ => rfl)
  exact ⟨ha.1, ha.2, hb.1, hb.2.2⟩

end ProcessManager
